import Mathlib

/-!
# Verification of the CDR engine (`src/main/cdr.c`)

A shallow embedding of the Call Detail Record engine's per-record state
machine, Party-A selection, disposition derivation, variable handling and
public-record construction, translated from `src/main/cdr.c`.  Machine
integers are modelled as `Int`/`Nat`; C string comparisons as `String`
equality (with an explicit lower-casing model of `strcasecmp`); nullable
pointers as `Option`.  Theorems at the end settle the specification claims.
-/

namespace Cdr

/-! ## Time values

`struct timeval` with seconds and microseconds.  In the engine an
absent timestamp is represented by the all-zero value (`ast_tvzero`). -/

structure Timeval where
  tv_sec : Int
  tv_usec : Int
deriving DecidableEq, Repr, Inhabited

/-- The zero time value; `ast_tvzero(tv)` is `tv = tvZero`. -/
def tvZero : Timeval := ⟨0, 0⟩

/-- `ast_tvzero`: both fields are zero. -/
def ast_tvzero (tv : Timeval) : Bool :=
  tv.tv_sec == 0 && tv.tv_usec == 0

/-- Modelled from the spec: the difference `end_tv - start_tv` in
milliseconds (`ast_tvdiff_ms` from `include/asterisk/time.h`, which is not
under `src/`).  The source offsets the microsecond difference by 1,000,000
so that the C truncating division always acts on a positive operand;
`Int.tdiv` is C's truncating division. -/
def ast_tvdiff_ms (end_tv start_tv : Timeval) : Int :=
  ((end_tv.tv_sec - start_tv.tv_sec) * 1000) +
    (((1000000 + end_tv.tv_usec - start_tv.tv_usec).tdiv 1000) - 1000)

/-- A time value is well formed when its microsecond field is in range. -/
def tvWellFormed (tv : Timeval) : Prop :=
  0 ≤ tv.tv_usec ∧ tv.tv_usec < 1000000

/-! ## Configuration

The configuration flags read by the embedded functions
(`CDR_CONGESTION`, `CDR_END_BEFORE_H_EXTEN`, `CDR_INITIATED_SECONDS`). -/

structure Config where
  congestion : Bool
  endbeforehexten : Bool
  initiatedseconds : Bool
deriving DecidableEq, Repr, Inhabited

/-! ## Channel snapshots

`struct ast_channel_snapshot` restricted to the fields the CDR engine
reads.  The flag bits tested by the engine (`AST_FLAG_OUTGOING`,
`AST_FLAG_ORIGINATED`, `AST_FLAG_ZOMBIE`) are modelled as booleans. -/

structure ChanFlags where
  outgoing : Bool
  originated : Bool
  zombie : Bool
deriving DecidableEq, Repr, Inhabited

/-- `AST_STATE_UP` from the channel state enumeration. -/
def AST_STATE_UP : Nat := 6

structure ChannelSnapshot where
  name : String
  uniqueid : String
  linkedid : String
  accountcode : String
  caller_name : String
  caller_number : String
  caller_dnid : String
  caller_subaddr : String
  dialed_subaddr : String
  exten : String
  context : String
  priority : Int
  appl : String
  data : String
  chanstate : Nat
  amaflags : Int
  hangupcause : Int
  creationtime : Timeval
  flags : ChanFlags
deriving DecidableEq, Repr

instance : Inhabited ChannelSnapshot :=
  ⟨⟨"", "", "", "", "", "", "", "", "", "", "", 0, "", "", 0, 0, 0, tvZero,
    ⟨false, false, false⟩⟩⟩

/-! ## CDR variables

`struct varshead` is an ordered list of named string variables; the most
recently inserted variable sits at the head of the list. -/

abbrev VarList := List (String × String)

/-- ASCII lower-casing of a string, character by character. -/
def toLowerStr (s : String) : String :=
  ⟨s.data.map Char.toLower⟩

/-- Model of `strcasecmp(a, b) == 0`: equality after ASCII lower-casing. -/
def strCaseEq (a b : String) : Bool :=
  toLowerStr a == toLowerStr b

/-- `set_variable`: remove the first variable whose name matches
case-insensitively, then, when a value is supplied, insert the new
variable at the head of the list. -/
def set_variable (headp : VarList) (name : String) (value : Option String) :
    VarList :=
  let removed := removeFirst headp
  match value with
  | some v => (name, v) :: removed
  | none => removed
where
  removeFirst : VarList → VarList
    | [] => []
    | v :: rest =>
      if strCaseEq v.1 name then rest else v :: removeFirst rest

/-- `copy_variables`: traverse `from_list` and insert every variable with a
non-empty name and value at the *head* of `to_list` (the source uses
`AST_LIST_INSERT_HEAD`, so the copy reverses the traversal order). -/
def copy_variables (to_list from_list : VarList) : VarList :=
  from_list.foldl
    (fun acc v => if v.1 ≠ "" ∧ v.2 ≠ "" then v :: acc else acc) to_list

/-- `free_variables`: delete every variable. -/
def free_variables (_headp : VarList) : VarList := []

/-! ## Party snapshots and CDR records -/

/-- Per-party flags; the engine only tests `AST_CDR_FLAG_PARTY_A` on the
per-party flag word. -/
structure PartyFlags where
  party_a : Bool
deriving DecidableEq, Repr, Inhabited

/-- `struct cdr_object_snapshot`.  For Party A the channel snapshot is
never null after construction; the nullable Party B side is modelled as
`Option CdrPartySnapshot` on the record.  The source's `variables` field
is named `vars` here because `variables` is reserved in Lean. -/
structure CdrPartySnapshot where
  snapshot : ChannelSnapshot
  userfield : String
  flags : PartyFlags
  vars : VarList
deriving DecidableEq, Repr

/-- `enum ast_cdr_disposition`. -/
inductive Disposition where
  | null
  | failed
  | busy
  | noanswer
  | answered
  | congestion
deriving DecidableEq, Repr, Inhabited

/-- The six states of the per-record state machine, one per
`cdr_object_fn_table`. -/
inductive CdrState where
  | single
  | dial
  | dialedPending
  | bridged
  | pending
  | finalized
deriving DecidableEq, Repr, Inhabited

/-- Record-level flags (`AST_CDR_FLAG_*`) stored on a `cdr_object` and
passed as options to the public API. -/
structure CdrFlags where
  disable : Bool
  keep_vars : Bool
  set_answer : Bool
  reset : Bool
  finalize : Bool
deriving DecidableEq, Repr, Inhabited

def CdrFlags.none : CdrFlags := ⟨false, false, false, false, false⟩

/-- `struct cdr_object`.  The `fn_table` pointer is modelled by the
`state` field; `next`/`last` chain structure is modelled by keeping the
records of a chain in a list. -/
structure CdrObject where
  party_a : CdrPartySnapshot
  party_b : Option CdrPartySnapshot
  state : CdrState
  disposition : Disposition
  start : Timeval
  answer : Timeval
  end_tv : Timeval
  sequence : Nat
  flags : CdrFlags
  linkedid : String
  name : String
  bridge : String
  appl : String
  data : String
deriving DecidableEq, Repr

/-! ## Party-A selection (`cdr_object_pick_party_a`) -/

/-- `snapshot_is_dialed`: the channel was created as the destination of a
dial: `AST_FLAG_OUTGOING` set and `AST_FLAG_ORIGINATED` clear. -/
def snapshot_is_dialed (snapshot : ChannelSnapshot) : Bool :=
  snapshot.flags.outgoing && !snapshot.flags.originated

/-- `cdr_object_pick_party_a`, translated clause by clause.  Note that the
second Party-A-flag clause tests `right` against itself, exactly as the
source does. -/
def cdr_object_pick_party_a (left right : CdrPartySnapshot) :
    CdrPartySnapshot :=
  if !snapshot_is_dialed left.snapshot && snapshot_is_dialed right.snapshot then
    left
  else if snapshot_is_dialed left.snapshot && !snapshot_is_dialed right.snapshot then
    right
  else if left.flags.party_a && !right.flags.party_a then
    left
  else if !right.flags.party_a && right.flags.party_a then
    right
  else if left.snapshot.creationtime.tv_sec < right.snapshot.creationtime.tv_sec then
    left
  else if left.snapshot.creationtime.tv_sec > right.snapshot.creationtime.tv_sec then
    right
  else if left.snapshot.creationtime.tv_usec > right.snapshot.creationtime.tv_usec then
    right
  else
    left

/-! ## Durations (`cdr_object_get_duration`, `cdr_object_get_billsec`) -/

/-- `cdr_object_get_duration`; `now` stands for `ast_tvnow()`. -/
def cdr_object_get_duration (now : Timeval) (cdr : CdrObject) : Int :=
  if ast_tvzero cdr.end_tv then
    (ast_tvdiff_ms now cdr.start).tdiv 1000
  else
    (ast_tvdiff_ms cdr.end_tv cdr.start).tdiv 1000

/-- `cdr_object_get_billsec`.  `Int.tdiv`/`Int.tmod` are C's truncating
division and remainder. -/
def cdr_object_get_billsec (cfg : Config) (cdr : CdrObject) : Int :=
  if ast_tvzero cdr.answer then
    0
  else
    let ms := ast_tvdiff_ms cdr.end_tv cdr.answer
    if cfg.initiatedseconds ∧ ms.tmod 1000 ≥ 500 then
      ms.tdiv 1000 + 1
    else
      ms.tdiv 1000

/-! ## Hangup causes

Numeric cause codes from `include/asterisk/causes.h` (not under `src/`);
the standard Q.931 values. -/

def AST_CAUSE_NO_ROUTE_DESTINATION : Int := 3
def AST_CAUSE_NORMAL_CLEARING : Int := 16
def AST_CAUSE_BUSY : Int := 17
def AST_CAUSE_NO_ANSWER : Int := 19
def AST_CAUSE_UNREGISTERED : Int := 20
def AST_CAUSE_CONGESTION : Int := 34

/-! ## Disposition and finalization -/

/-- `cdr_object_set_disposition`: map a hangup cause code onto the
record's disposition.  Causes outside the switch leave the disposition
untouched (the `default:` branch only breaks). -/
def cdr_object_set_disposition (cfg : Config) (cdr : CdrObject)
    (hangupcause : Int) : CdrObject :=
  if hangupcause = AST_CAUSE_BUSY then
    { cdr with disposition := .busy }
  else if hangupcause = AST_CAUSE_CONGESTION then
    if !cfg.congestion then
      { cdr with disposition := .failed }
    else
      { cdr with disposition := .congestion }
  else if hangupcause = AST_CAUSE_NO_ROUTE_DESTINATION
      ∨ hangupcause = AST_CAUSE_UNREGISTERED then
    { cdr with disposition := .failed }
  else if hangupcause = AST_CAUSE_NORMAL_CLEARING
      ∨ hangupcause = AST_CAUSE_NO_ANSWER then
    { cdr with disposition := .noanswer }
  else
    cdr

/-- `cdr_object_finalize`: a no-op when `end` is already set; otherwise
set `end` to now and, when the disposition is still Null, derive it from
the answer time or the parties' hangup causes. -/
def cdr_object_finalize (cfg : Config) (now : Timeval) (cdr : CdrObject) :
    CdrObject :=
  if !ast_tvzero cdr.end_tv then
    cdr
  else
    let cdr := { cdr with end_tv := now }
    if cdr.disposition = .null then
      if !ast_tvzero cdr.answer then
        { cdr with disposition := .answered }
      else if cdr.party_a.snapshot.hangupcause ≠ 0 then
        cdr_object_set_disposition cfg cdr cdr.party_a.snapshot.hangupcause
      else
        match cdr.party_b with
        | some pb =>
          if pb.snapshot.hangupcause ≠ 0 then
            cdr_object_set_disposition cfg cdr pb.snapshot.hangupcause
          else
            { cdr with disposition := .failed }
        | none => { cdr with disposition := .failed }
    else
      cdr

/-- `cdr_object_check_party_a_answer`: when Party A is up and `answer` is
unset, stamp the answer time. -/
def cdr_object_check_party_a_answer (now : Timeval) (cdr : CdrObject) :
    CdrObject :=
  if cdr.party_a.snapshot.chanstate = AST_STATE_UP ∧ ast_tvzero cdr.answer then
    { cdr with answer := now }
  else
    cdr

/-- `cdr_object_transition_state`: install the new state's vtable and run
its init function.  Single stamps `start` and checks for an answer;
Finalized finalizes immediately when `endbeforehexten` is configured;
Pending sets the `Disable` flag (the source routes this through
`ast_cdr_set_property` on the chain's non-finalized records; at record
level it sets the flag on this record). -/
def cdr_object_transition_state (cfg : Config) (now : Timeval)
    (cdr : CdrObject) (newState : CdrState) : CdrObject :=
  let cdr := { cdr with state := newState }
  match newState with
  | .single => cdr_object_check_party_a_answer now { cdr with start := now }
  | .pending => { cdr with flags := { cdr.flags with disable := true } }
  | .finalized =>
    if !cfg.endbeforehexten then cdr else cdr_object_finalize cfg now cdr
  | _ => cdr

/-- `cdr_object_check_party_a_hangup`: a Zombie Party A forces the record
into the finalized state. -/
def cdr_object_check_party_a_hangup (cfg : Config) (now : Timeval)
    (cdr : CdrObject) : CdrObject :=
  if cdr.party_a.snapshot.flags.zombie ∧ cdr.state ≠ .finalized then
    cdr_object_transition_state cfg now cdr .finalized
  else
    cdr

/-! ## Snapshot swapping (`cdr_object_update_cid`,
`cdr_object_swap_snapshot`, `cdr_object_snapshot_copy`) -/

/-- `cdr_object_update_cid` for a party whose old snapshot is present:
refresh the caller-id derived variables whose source fields are unchanged. -/
def cdr_object_update_cid (old : CdrPartySnapshot)
    (new_snapshot : ChannelSnapshot) : VarList :=
  let v := old.vars
  let v := if old.snapshot.caller_dnid = new_snapshot.caller_dnid then
    set_variable v "dnid" (some new_snapshot.caller_dnid) else v
  let v := if old.snapshot.caller_subaddr = new_snapshot.caller_subaddr then
    set_variable v "callingsubaddr" (some new_snapshot.caller_subaddr) else v
  let v := if old.snapshot.dialed_subaddr = new_snapshot.dialed_subaddr then
    set_variable v "calledsubaddr" (some new_snapshot.dialed_subaddr) else v
  v

/-- `cdr_object_update_cid` for a party whose old snapshot is null: set
all three caller-id variables unconditionally. -/
def cdr_object_update_cid_fresh (vars : VarList)
    (new_snapshot : ChannelSnapshot) : VarList :=
  let v := set_variable vars "dnid" (some new_snapshot.caller_dnid)
  let v := set_variable v "callingsubaddr" (some new_snapshot.caller_subaddr)
  set_variable v "calledsubaddr" (some new_snapshot.dialed_subaddr)

/-- `cdr_object_swap_snapshot` on a party with a present snapshot. -/
def cdr_object_swap_snapshot (old : CdrPartySnapshot)
    (new_snapshot : ChannelSnapshot) : CdrPartySnapshot :=
  { old with vars := cdr_object_update_cid old new_snapshot,
             snapshot := new_snapshot }

/-- `cdr_object_swap_snapshot` on the nullable Party B slot.  When the
slot is empty the struct's userfield/flags/variables are still zeroed. -/
def cdr_object_swap_snapshot_b (old : Option CdrPartySnapshot)
    (new_snapshot : ChannelSnapshot) : CdrPartySnapshot :=
  match old with
  | some o => cdr_object_swap_snapshot o new_snapshot
  | none =>
    { snapshot := new_snapshot, userfield := "", flags := ⟨false⟩,
      vars := cdr_object_update_cid_fresh [] new_snapshot }

/-- `cdr_object_snapshot_copy`: adopt the source party's snapshot,
userfield and flags and copy its variables onto the destination list. -/
def cdr_object_snapshot_copy (dst src : CdrPartySnapshot) :
    CdrPartySnapshot :=
  { snapshot := src.snapshot, userfield := src.userfield,
    flags := src.flags, vars := copy_variables dst.vars src.vars }

/-! ## Record construction and chains -/

/-- `cdr_object_alloc`: a fresh record for a Party A channel snapshot,
implicitly transitioned into the Single state (which stamps `start` and
checks for an answer). -/
def cdr_object_alloc (cfg : Config) (now : Timeval) (seq : Nat)
    (chan : ChannelSnapshot) : CdrObject :=
  let cdr : CdrObject :=
    { party_a := { snapshot := chan, userfield := "", flags := ⟨false⟩,
                   vars := [] }
      party_b := none
      state := .single
      disposition := .null
      start := tvZero, answer := tvZero, end_tv := tvZero
      sequence := seq
      flags := CdrFlags.none
      linkedid := chan.linkedid
      name := chan.name
      bridge := "", appl := "", data := "" }
  cdr_object_transition_state cfg now cdr .single

/-- A channel's chain of records: the head plus the `next` list.  The
source's `head->last` tail pointer is `CdrChain.last`. -/
structure CdrChain where
  head : CdrObject
  rest : List CdrObject
deriving DecidableEq, Repr

def CdrChain.records (c : CdrChain) : List CdrObject := c.head :: c.rest

def CdrChain.last (c : CdrChain) : CdrObject := c.rest.getLastD c.head

/-- `cdr_object_create_and_append`: allocate a new record from the chain
tail's Party A, copy the tail's linkedid/appl/data and Party A snapshot
(including variables) forward, and append it to the chain.  Returns the
new chain and the new record. -/
def cdr_object_create_and_append (cfg : Config) (now : Timeval) (seq : Nat)
    (chain : CdrChain) : CdrChain × CdrObject :=
  let cdr_last := chain.last
  let new_cdr := cdr_object_alloc cfg now seq cdr_last.party_a.snapshot
  let new_cdr := { new_cdr with
    disposition := .null
    linkedid := cdr_last.linkedid
    appl := cdr_last.appl
    data := cdr_last.data
    party_a := cdr_object_snapshot_copy new_cdr.party_a cdr_last.party_a }
  (⟨chain.head, chain.rest ++ [new_cdr]⟩, new_cdr)

/-! ## Base and per-state event handlers -/

/-- `base_process_party_a`: swap in the new Party A snapshot, latch the
last accepted application (ignoring the dummy `AppDial` restoration),
refresh the cached linkedid, then run the answer and hangup checks. -/
def base_process_party_a (cfg : Config) (now : Timeval) (cdr : CdrObject)
    (snapshot : ChannelSnapshot) : CdrObject × Int :=
  let cdr := { cdr with party_a := cdr_object_swap_snapshot cdr.party_a snapshot }
  let cdr :=
    if snapshot.appl ≠ "" ∧
        ((snapshot.appl.data.take 7).map Char.toLower ≠ "appdial".data ∨ cdr.appl = "") then
      { cdr with appl := snapshot.appl, data := snapshot.data }
    else
      cdr
  let cdr := { cdr with linkedid := snapshot.linkedid }
  let cdr := cdr_object_check_party_a_answer now cdr
  let cdr := cdr_object_check_party_a_hangup cfg now cdr
  (cdr, 0)

/-- `single_state_process_dial_begin`: adopt the caller as Party A and the
peer as Party B (or, when this record's channel is the one being dialed,
adopt the peer as Party A), then move to the Dial state. -/
def single_state_process_dial_begin (cfg : Config) (now : Timeval)
    (cdr : CdrObject) (caller : Option ChannelSnapshot)
    (peer : Option ChannelSnapshot) : CdrObject × Int :=
  let cdr :=
    match caller with
    | some c =>
      if cdr.party_a.snapshot.name = c.name then
        let cdr := { cdr with party_a := cdr_object_swap_snapshot cdr.party_a c }
        match peer with
        | some p => { cdr with party_b := some (cdr_object_swap_snapshot_b cdr.party_b p) }
        | none => cdr
      else
        match peer with
        | some p =>
          if cdr.party_a.snapshot.name = p.name then
            { cdr with party_a := cdr_object_swap_snapshot cdr.party_a p }
          else cdr
        | none => cdr
    | none =>
      match peer with
      | some p =>
        if cdr.party_a.snapshot.name = p.name then
          { cdr with party_a := cdr_object_swap_snapshot cdr.party_a p }
        else cdr
      | none => cdr
  (cdr_object_transition_state cfg now cdr .dial, 0)

/-- `dial_status_to_disposition`: the dial-status string to disposition
mapping applied on dial-end. -/
def dial_status_to_disposition (cfg : Config) (dial_status : String) :
    Disposition :=
  if dial_status = "ANSWER" then
    .answered
  else if dial_status = "BUSY" then
    .busy
  else if dial_status = "CANCEL" ∨ dial_status = "NOANSWER" then
    .noanswer
  else if dial_status = "CONGESTION" then
    if !cfg.congestion then .failed else .congestion
  else if dial_status = "FAILED" then
    .failed
  else
    .failed

/-- `dial_state_process_dial_end`: refresh the Party A (and, when it
matches, Party B) snapshots, set the disposition from the dial status and
transition to DialedPending on Answered, otherwise to Finalized.  A peer
that does not match an existing Party B defers the event (returns 1).
The source dereferences `peer` unconditionally in that comparison; a null
peer is modelled by the default snapshot. -/
def dial_state_process_dial_end (cfg : Config) (now : Timeval)
    (cdr : CdrObject) (caller : Option ChannelSnapshot)
    (peer : Option ChannelSnapshot) (dial_status : String) :
    CdrObject × Int :=
  let party_a := match caller with
    | some c => c
    | none => peer.getD default
  let cdr := { cdr with party_a := cdr_object_swap_snapshot cdr.party_a party_a }
  match cdr.party_b with
  | some pb =>
    if pb.snapshot.name ≠ (peer.getD default).name then
      (cdr, 1)
    else
      let cdr := { cdr with
        party_b := some (cdr_object_swap_snapshot_b cdr.party_b (peer.getD default)) }
      let cdr := { cdr with disposition := dial_status_to_disposition cfg dial_status }
      if cdr.disposition = .answered then
        (cdr_object_transition_state cfg now cdr .dialedPending, 0)
      else
        (cdr_object_transition_state cfg now cdr .finalized, 0)
  | none =>
    let cdr := { cdr with disposition := dial_status_to_disposition cfg dial_status }
    if cdr.disposition = .answered then
      (cdr_object_transition_state cfg now cdr .dialedPending, 0)
    else
      (cdr_object_transition_state cfg now cdr .finalized, 0)

/-- `finalized_state_process_party_a`: when the record's Party A snapshot
carries the Zombie flag, finalize again; always report "not handled". -/
def finalized_state_process_party_a (cfg : Config) (now : Timeval)
    (cdr : CdrObject) (_snapshot : ChannelSnapshot) : CdrObject × Int :=
  if cdr.party_a.snapshot.flags.zombie then
    (cdr_object_finalize cfg now cdr, 1)
  else
    (cdr, 1)

/-- `dialed_pending_state_process_dial_begin`, translated line by line:
transition this record to Finalized, create and append a new record, then
transition this record to the Single state and dispatch the dial-begin
through the new record's vtable — passing this record, not the new one,
as the source does.  Returns the updated chain and the handler result;
the record being processed is the chain record at index `i`. -/
def dialed_pending_state_process_dial_begin (cfg : Config) (now : Timeval)
    (seq : Nat) (chain : CdrChain) (i : Nat)
    (caller peer : Option ChannelSnapshot) : CdrChain × Int :=
  match chain.records.get? i with
  | none => (chain, 0)
  | some cdr =>
    let cdr := cdr_object_transition_state cfg now cdr .finalized
    let chain := chainSet chain i cdr
    let (chain, new_cdr) := cdr_object_create_and_append cfg now seq chain
    let cdr := cdr_object_transition_state cfg now cdr .single
    let chain := chainSet chain i cdr
    match new_cdr.state with
    | .single =>
      let (cdr, res) := single_state_process_dial_begin cfg now cdr caller peer
      (chainSet chain i cdr, res)
    | _ => (chain, 0)
where
  /-- Replace the record at index `i` of the chain. -/
  chainSet (chain : CdrChain) (i : Nat) (cdr : CdrObject) : CdrChain :=
    match i with
    | 0 => ⟨cdr, chain.rest⟩
    | n + 1 => ⟨chain.head, chain.rest.set n cdr⟩

/-! ## Public record variables (`cdr_object_create_public_records`,
lines 1006-1020)

The variable list of one public record row: Party A's variables copied
with `copy_variables` (head insertion, so the stored order is reversed),
then every Party B variable whose name (compared with `strcmp`, i.e.
case-sensitively) is not already present appended at the tail. -/

def cdr_object_create_public_record_vars (party_a_vars party_b_vars : VarList) :
    VarList :=
  let varshead := copy_variables [] party_a_vars
  party_b_vars.foldl
    (fun acc v =>
      if acc.any (fun w => w.1 = v.1) then acc else acc ++ [v])
    varshead

/-! ## The channel index and the public API
(`ast_cdr_setvar`, `ast_cdr_fork`)

`active_cdrs_by_channel` holds one chain per live channel, keyed by the
head record's cached Party A name, compared case-insensitively. -/

abbrev Engine := List CdrChain

/-- `ao2_find(active_cdrs_by_channel, name, OBJ_KEY)`: the first chain
whose head's cached `name` matches case-insensitively
(`cdr_object_channel_cmp_fn`). -/
def engineFindChannel (engine : Engine) (name : String) : Option CdrChain :=
  engine.find? (fun chain => strCaseEq chain.head.name name)

/-- `cdr_object_select_all_by_channel_cb`: a chain is selected when its
head record references the channel as Party A or Party B. -/
def cdr_object_select_all_by_channel_cb (chain : CdrChain) (name : String) :
    Bool :=
  strCaseEq chain.head.party_a.snapshot.name name ||
    (match chain.head.party_b with
     | some pb => strCaseEq pb.snapshot.name name
     | none => false)

/-- The read-only CDR variable names (`cdr_readonly_vars`). -/
def cdr_readonly_vars : List String :=
  ["clid", "src", "dst", "dcontext", "channel", "dstchannel",
   "lastapp", "lastdata", "start", "answer", "end", "duration",
   "billsec", "disposition", "amaflags", "accountcode", "uniqueid",
   "linkedid", "userfield", "sequence"]

/-- The per-record mutation of `ast_cdr_setvar`: skip finalized records;
set the variable on the Party A list when the channel name matches the
Party A snapshot exactly (`strcmp`), else on a matching Party B. -/
def setvarOnRecord (channel_name name : String) (value : Option String)
    (cdr : CdrObject) : CdrObject :=
  if cdr.state = .finalized then
    cdr
  else if channel_name = cdr.party_a.snapshot.name then
    { cdr with party_a :=
        { cdr.party_a with vars := set_variable cdr.party_a.vars name value } }
  else
    match cdr.party_b with
    | some pb =>
      if channel_name = pb.snapshot.name then
        let pb' := { pb with vars := set_variable pb.vars name value }
        { cdr with party_b := some pb' }
      else cdr
    | none => cdr

/-- `ast_cdr_setvar`: reject read-only names (case-insensitively), then
set the variable on every record referencing the channel in every
selected chain.  Returns the result code and the updated engine. -/
def ast_cdr_setvar (engine : Engine) (channel_name name : String)
    (value : Option String) : Int × Engine :=
  if cdr_readonly_vars.any (fun v => strCaseEq name v) then
    (-1, engine)
  else if engine.all (fun chain => !cdr_object_select_all_by_channel_cb chain channel_name) then
    (-1, engine)
  else
    (0, engine.map (fun chain =>
      if cdr_object_select_all_by_channel_cb chain channel_name then
        ⟨setvarOnRecord channel_name name value chain.head,
         chain.rest.map (setvarOnRecord channel_name name value)⟩
      else chain))

/-- `ast_cdr_fork`.  Refuses to fork when no chain exists for the channel
or when the chain's last record is finalized; otherwise appends a new
record carrying the last record's state, Party B, `start`/`answer`, the
head's bridge and flags, applies the SetAnswer/Reset/KeepVars options and
optionally finalizes the earlier records. -/
def ast_cdr_fork (cfg : Config) (now : Timeval) (seq : Nat)
    (engine : Engine) (channel_name : String) (options : CdrFlags) :
    Int × Engine :=
  match engineFindChannel engine channel_name with
  | none => (-1, engine)
  | some cdr =>
    let cdr_obj := cdr.last
    if cdr_obj.state = .finalized then
      (-1, engine)
    else
      let (chain, new_cdr) := cdr_object_create_and_append cfg now seq cdr
      let new_cdr := { new_cdr with
        state := cdr_obj.state
        bridge := cdr.head.bridge
        flags := cdr.head.flags }
      let new_cdr :=
        match cdr_obj.party_b with
        | some pb =>
          let pb' : CdrPartySnapshot :=
            { snapshot := pb.snapshot, userfield := pb.userfield,
              flags := pb.flags,
              vars := if options.keep_vars then
                  copy_variables [] pb.vars
                else [] }
          { new_cdr with party_b := some pb' }
        | none => new_cdr
      let new_cdr := { new_cdr with start := cdr_obj.start,
                                    answer := cdr_obj.answer }
      let new_cdr :=
        if options.set_answer ∧ new_cdr.party_a.snapshot.chanstate = AST_STATE_UP then
          { new_cdr with answer := now }
        else new_cdr
      let new_cdr :=
        if options.reset then
          { new_cdr with answer := now, start := now }
        else new_cdr
      let new_cdr :=
        if !options.keep_vars then
          { new_cdr with party_a :=
              { new_cdr.party_a with vars := free_variables new_cdr.party_a.vars } }
        else new_cdr
      let finalizeEarlier : CdrObject → CdrObject := fun it_cdr =>
        if options.finalize ∧ it_cdr.state ≠ .finalized then
          cdr_object_transition_state cfg now
            (cdr_object_finalize cfg now it_cdr) .finalized
        else it_cdr
      let earlier := (chain.head :: chain.rest.dropLast).map finalizeEarlier
      let chain : CdrChain :=
        ⟨earlier.headD chain.head, earlier.tail ++ [new_cdr]⟩
      (0, engine.map (fun c =>
        if strCaseEq c.head.name channel_name then chain else c))

/-! ## The vtable layout

Which handlers each state's `cdr_object_fn_table` defines (a missing
handler is a NULL pointer the message router checks before dispatch,
skipping the record). -/

/-- Every state defines `process_party_a`. -/
def has_process_party_a (_s : CdrState) : Bool := true

/-- `process_party_b` exists for Single, Dial and Bridged only. -/
def has_process_party_b : CdrState → Bool
  | .single | .dial | .bridged => true
  | _ => false

/-- `process_dial_begin` exists for Single, Dial, DialedPending and
Pending. -/
def has_process_dial_begin : CdrState → Bool
  | .single | .dial | .dialedPending | .pending => true
  | _ => false

/-- `process_dial_end` exists for Single (base), Dial and Pending
(base). -/
def has_process_dial_end : CdrState → Bool
  | .single | .dial | .pending => true
  | _ => false

/-- `process_bridge_enter` exists for Single, Dial, DialedPending and
Pending. -/
def has_process_bridge_enter : CdrState → Bool
  | .single | .dial | .dialedPending | .pending => true
  | _ => false

/-- `process_bridge_leave` exists for every state except Finalized. -/
def has_process_bridge_leave : CdrState → Bool
  | .finalized => false
  | _ => true

/-! ## The remaining Party-A and Party-B handlers -/

/-- `dialed_pending_state_process_party_a`: a CEP change (context,
extension, priority or application) with a Party B finalizes the record
and re-dispatches to the Finalized handler; without a Party B it goes
back to Single and re-dispatches there; no CEP change runs the base
handler. -/
def dialed_pending_state_process_party_a (cfg : Config) (now : Timeval)
    (cdr : CdrObject) (snapshot : ChannelSnapshot) : CdrObject × Int :=
  if snapshot.context ≠ cdr.party_a.snapshot.context
      ∨ snapshot.exten ≠ cdr.party_a.snapshot.exten
      ∨ snapshot.priority ≠ cdr.party_a.snapshot.priority
      ∨ snapshot.appl ≠ cdr.party_a.snapshot.appl then
    match cdr.party_b with
    | some _ =>
      let cdr := cdr_object_transition_state cfg now cdr .finalized
      ((finalized_state_process_party_a cfg now cdr snapshot).1, 1)
    | none =>
      let cdr := cdr_object_transition_state cfg now cdr .single
      ((base_process_party_a cfg now cdr snapshot).1, 0)
  else
    ((base_process_party_a cfg now cdr snapshot).1, 0)

/-- `pending_state_process_party_a`: ignore Zombie snapshots and
non-CEP-changes (context, extension, priority); otherwise go back to
Single, clear the Disable flag (the source routes the clear through
`ast_cdr_clear_property` over the chain's non-finalized records; at
record level it clears this record's flag) and re-dispatch. -/
def pending_state_process_party_a (cfg : Config) (now : Timeval)
    (cdr : CdrObject) (snapshot : ChannelSnapshot) : CdrObject × Int :=
  if snapshot.flags.zombie then
    (cdr, 0)
  else if snapshot.context = cdr.party_a.snapshot.context
      ∧ snapshot.exten = cdr.party_a.snapshot.exten
      ∧ snapshot.priority = cdr.party_a.snapshot.priority then
    (cdr, 0)
  else
    let cdr := cdr_object_transition_state cfg now cdr .single
    let cdr := { cdr with flags := { cdr.flags with disable := false } }
    ((base_process_party_a cfg now cdr snapshot).1, 0)

/-- Dispatch `process_party_a` through the current vtable: Single, Dial
and Bridged use the base handler. -/
def process_party_a_dispatch (cfg : Config) (now : Timeval)
    (cdr : CdrObject) (snapshot : ChannelSnapshot) : CdrObject × Int :=
  match cdr.state with
  | .single | .dial | .bridged => base_process_party_a cfg now cdr snapshot
  | .dialedPending => dialed_pending_state_process_party_a cfg now cdr snapshot
  | .pending => pending_state_process_party_a cfg now cdr snapshot
  | .finalized => finalized_state_process_party_a cfg now cdr snapshot

/-- `dial_state_process_party_b`: swap in a matching Party B snapshot and
finalize the record when the new snapshot is a Zombie. -/
def dial_state_process_party_b (cfg : Config) (now : Timeval)
    (cdr : CdrObject) (snapshot : ChannelSnapshot) : CdrObject :=
  match cdr.party_b with
  | some pb =>
    if pb.snapshot.name ≠ snapshot.name then
      cdr
    else
      let cdr := { cdr with party_b := some (cdr_object_swap_snapshot pb snapshot) }
      if snapshot.flags.zombie then
        cdr_object_transition_state cfg now cdr .finalized
      else cdr
  | none => cdr

/-- `bridge_state_process_party_b`: same body as the Dial handler. -/
def bridge_state_process_party_b (cfg : Config) (now : Timeval)
    (cdr : CdrObject) (snapshot : ChannelSnapshot) : CdrObject :=
  match cdr.party_b with
  | some pb =>
    if pb.snapshot.name ≠ snapshot.name then
      cdr
    else
      let cdr := { cdr with party_b := some (cdr_object_swap_snapshot pb snapshot) }
      if snapshot.flags.zombie then
        cdr_object_transition_state cfg now cdr .finalized
      else cdr
  | none => cdr

/-- `cdr_object_update_party_b` (the channel-update Party-B scan): for
each record whose vtable defines `process_party_b` and whose Party B
matches the updated channel, invoke the state's Party-B handler (Single's
is an asserting no-op). -/
def cdr_object_update_party_b (cfg : Config) (now : Timeval)
    (records : List CdrObject) (party_b : ChannelSnapshot) : List CdrObject :=
  records.map (fun it_cdr =>
    if has_process_party_b it_cdr.state then
      match it_cdr.party_b with
      | some pb =>
        if pb.snapshot.name = party_b.name then
          match it_cdr.state with
          | .dial => dial_state_process_party_b cfg now it_cdr party_b
          | .bridged => bridge_state_process_party_b cfg now it_cdr party_b
          | _ => it_cdr
        else it_cdr
      | none => it_cdr
    else it_cdr)

/-- `cdr_object_finalize_party_b` (the channel-gone Party-B scan):
finalize, in place and in any state, every record whose Party B is the
vanished channel. -/
def cdr_object_finalize_party_b (cfg : Config) (now : Timeval)
    (records : List CdrObject) (party_b_name : String) : List CdrObject :=
  records.map (fun it_cdr =>
    match it_cdr.party_b with
    | some pb =>
      if pb.snapshot.name = party_b_name then
        cdr_object_finalize cfg now it_cdr
      else it_cdr
    | none => it_cdr)

/-! ## Bridge leave (Party-B side) -/

/-- `bridge_state_process_bridge_leave`: transition to Finalized when the
bridge matches and the leaver is this record's Party A or Party B. -/
def bridge_state_process_bridge_leave (cfg : Config) (now : Timeval)
    (cdr : CdrObject) (bridge_id : String) (channel_name : String) :
    CdrObject × Int :=
  if cdr.bridge ≠ bridge_id then
    (cdr, 1)
  else if (cdr.party_a.snapshot.name != channel_name)
      && (match cdr.party_b with
          | some pb => pb.snapshot.name != channel_name
          | none => false) then
    (cdr, 1)
  else
    (cdr_object_transition_state cfg now cdr .finalized, 0)

/-- `cdr_object_party_b_left_bridge_cb`: on a chain whose head is in the
leaver's bridge, run bridge-leave on every Bridged record whose Party B
is the leaver, finalizing it in place when handled. -/
def cdr_object_party_b_left_bridge_cb (cfg : Config) (now : Timeval)
    (chain : CdrChain) (bridge_id : String) (channel_name : String) :
    CdrChain :=
  if chain.head.bridge ≠ bridge_id then
    chain
  else
    let step : CdrObject → CdrObject := fun it_cdr =>
      if it_cdr.state = .bridged then
        match it_cdr.party_b with
        | some pb =>
          if pb.snapshot.name = channel_name then
            let r := bridge_state_process_bridge_leave cfg now it_cdr
              bridge_id channel_name
            if r.2 = 0 then cdr_object_finalize cfg now r.1 else r.1
          else it_cdr
        | none => it_cdr
      else it_cdr
    ⟨step chain.head, chain.rest.map step⟩

/-! ## Bridge enter

The per-state `process_bridge_enter` handlers consult
`active_cdrs_by_bridge`; the candidate chains currently in the bridge
are passed explicitly (`cands`), and the handlers return them updated
(stealing finalizes a candidate in place). -/

/-- `cdr_object_snapshot_copy` onto the nullable Party B slot. -/
def cdr_object_snapshot_copy_b (dst : Option CdrPartySnapshot)
    (src : CdrPartySnapshot) : CdrPartySnapshot :=
  { snapshot := src.snapshot, userfield := src.userfield,
    flags := src.flags,
    vars := copy_variables ((dst.map CdrPartySnapshot.vars).getD []) src.vars }

/-- `single_state_bridge_enter_comparison`: try the candidate's Party A,
then its Party B, as our Party B; adopting a candidate's Party A when it
has no Party B of its own steals it (finalize without transition).
Returns our updated record, the updated candidate and the handler
result (0 = party B found). -/
def single_state_bridge_enter_comparison (cfg : Config) (now : Timeval)
    (cdr cand_cdr : CdrObject) : CdrObject × CdrObject × Int :=
  let party_a := cdr_object_pick_party_a cdr.party_a cand_cdr.party_a
  if party_a.snapshot.name = cdr.party_a.snapshot.name then
    let cdr := { cdr with
      party_b := some (cdr_object_snapshot_copy_b cdr.party_b cand_cdr.party_a) }
    let cand_cdr :=
      match cand_cdr.party_b with
      | none => cdr_object_finalize cfg now cand_cdr
      | some _ => cand_cdr
    (cdr, cand_cdr, 0)
  else
    match cand_cdr.party_b with
    | none => (cdr, cand_cdr, 1)
    | some cpb =>
      let party_a := cdr_object_pick_party_a cdr.party_a cpb
      if party_a.snapshot.name = cdr.party_a.snapshot.name then
        ({ cdr with party_b := some (cdr_object_snapshot_copy_b cdr.party_b cpb) },
         cand_cdr, 0)
      else
        (cdr, cand_cdr, 1)

/-- The inner candidate-chain walk of `single_state_process_bridge_enter`:
skip records not Bridged in our bridge, run the comparison on the rest,
and stop at the first success. -/
def single_bridge_scan (cfg : Config) (now : Timeval) (cdr : CdrObject) :
    List CdrObject → CdrObject × List CdrObject × Int
  | [] => (cdr, [], 1)
  | cand :: rest =>
    if cand.state = .bridged ∧ cand.bridge = cdr.bridge then
      let c := single_state_bridge_enter_comparison cfg now cdr cand
      if c.2.2 = 0 then
        (c.1, c.2.1 :: rest, 0)
      else
        let r := single_bridge_scan cfg now c.1 rest
        (r.1, c.2.1 :: r.2.1, r.2.2)
    else
      let r := single_bridge_scan cfg now cdr rest
      (r.1, cand :: r.2.1, r.2.2)

/-- `single_state_process_bridge_enter`: record the bridge, scan every
candidate chain for a Party B, then transition to Bridged; the result is
0 exactly when some chain supplied a Party B. -/
def single_state_process_bridge_enter (cfg : Config) (now : Timeval)
    (cdr : CdrObject) (bridge_id : String) (cands : List (List CdrObject)) :
    CdrObject × List (List CdrObject) × Int :=
  let go := single_go { cdr with bridge := bridge_id } cands
  (cdr_object_transition_state cfg now go.1 .bridged, go.2.1, go.2.2)
where
  single_go : CdrObject → List (List CdrObject) →
      CdrObject × List (List CdrObject) × Int
    | cdr, [] => (cdr, [], 1)
    | cdr, chain :: chains =>
      let s := single_bridge_scan cfg now cdr chain
      let r := single_go s.1 chains
      (r.1, s.2.1 :: r.2.1, if s.2.2 = 0 then 0 else r.2.2)

/-- The inner candidate-chain walk of `dial_state_process_bridge_enter`:
a candidate must be Bridged in our bridge and its Party A must be our
Party B (the source dereferences our Party B unconditionally; an absent
Party B is modelled as the empty name). -/
def dial_bridge_scan (cfg : Config) (now : Timeval) (cdr : CdrObject) :
    List CdrObject → CdrObject × List CdrObject × Int
  | [] => (cdr, [], 1)
  | cand :: rest =>
    if cand.state = .bridged ∧ cand.bridge = cdr.bridge
        ∧ ((cdr.party_b.map (fun pb => pb.snapshot.name)).getD "" =
            cand.party_a.snapshot.name) then
      let cdr := { cdr with
        party_b := some (cdr_object_snapshot_copy_b cdr.party_b cand.party_a) }
      let cand :=
        match cand.party_b with
        | none => cdr_object_finalize cfg now cand
        | some _ => cand
      (cdr, cand :: rest, 0)
    else
      let r := dial_bridge_scan cfg now cdr rest
      (r.1, cand :: r.2.1, r.2.2)

/-- `dial_state_process_bridge_enter`. -/
def dial_state_process_bridge_enter (cfg : Config) (now : Timeval)
    (cdr : CdrObject) (bridge_id : String) (cands : List (List CdrObject)) :
    CdrObject × List (List CdrObject) × Int :=
  let go := dial_go { cdr with bridge := bridge_id } cands
  (cdr_object_transition_state cfg now go.1 .bridged, go.2.1, go.2.2)
where
  dial_go : CdrObject → List (List CdrObject) →
      CdrObject × List (List CdrObject) × Int
    | cdr, [] => (cdr, [], 1)
    | cdr, chain :: chains =>
      let s := dial_bridge_scan cfg now cdr chain
      let r := dial_go s.1 chains
      (r.1, s.2.1 :: r.2.1, if s.2.2 = 0 then 0 else r.2.2)

/-- `dialed_pending_state_process_bridge_enter`: become Dial and
delegate. -/
def dialed_pending_state_process_bridge_enter (cfg : Config) (now : Timeval)
    (cdr : CdrObject) (bridge_id : String) (cands : List (List CdrObject)) :
    CdrObject × List (List CdrObject) × Int :=
  dial_state_process_bridge_enter cfg now
    (cdr_object_transition_state cfg now cdr .dial) bridge_id cands

/-- `pending_state_process_bridge_enter`: become Single, clear Disable
(record-level, see `pending_state_process_party_a`) and delegate. -/
def pending_state_process_bridge_enter (cfg : Config) (now : Timeval)
    (cdr : CdrObject) (bridge_id : String) (cands : List (List CdrObject)) :
    CdrObject × List (List CdrObject) × Int :=
  let cdr := cdr_object_transition_state cfg now cdr .single
  let cdr := { cdr with flags := { cdr.flags with disable := false } }
  single_state_process_bridge_enter cfg now cdr bridge_id cands

/-- Dispatch `process_bridge_enter` through the current vtable (Bridged
and Finalized define none; the router never dispatches to them). -/
def process_bridge_enter_dispatch (cfg : Config) (now : Timeval)
    (cdr : CdrObject) (bridge_id : String) (cands : List (List CdrObject)) :
    CdrObject × List (List CdrObject) × Int :=
  match cdr.state with
  | .single => single_state_process_bridge_enter cfg now cdr bridge_id cands
  | .dial => dial_state_process_bridge_enter cfg now cdr bridge_id cands
  | .dialedPending =>
    dialed_pending_state_process_bridge_enter cfg now cdr bridge_id cands
  | .pending => pending_state_process_bridge_enter cfg now cdr bridge_id cands
  | _ => (cdr, cands, 1)

/-- The per-record loop of `handle_bridge_enter_message`: every record
gets a Party-A snapshot pre-pass, then — when its (possibly new) state's
vtable has one — its `process_bridge_enter`, accumulating `res &=`. -/
def bridge_enter_loop (cfg : Config) (now : Timeval) (bridge_id : String)
    (channel : ChannelSnapshot) :
    List CdrObject → List (List CdrObject) → Int →
      List CdrObject × List (List CdrObject) × Int
  | [], cands, res => ([], cands, res)
  | r :: rest, cands, res =>
    let r1 := (process_party_a_dispatch cfg now r channel).1
    let step :=
      if has_process_bridge_enter r1.state then
        let p := process_bridge_enter_dispatch cfg now r1 bridge_id cands
        (p.1, p.2.1, if p.2.2 = 0 then 0 else res)
      else (r1, cands, res)
    let tail := bridge_enter_loop cfg now bridge_id channel rest
      step.2.1 step.2.2
    (step.1 :: tail.1, tail.2.1, tail.2.2)

/-- Finalize the chain head (the refused-by-all case of
`handle_bridge_enter_message`). -/
def headFinalize (cfg : Config) (now : Timeval) :
    List CdrObject → List CdrObject
  | [] => []
  | h :: t => cdr_object_finalize cfg now h :: t

/-- The per-chain core of `handle_bridge_enter_message` (cdr.c lines
2374-2399): the record loop, then, when no record handled the
bridge-enter (`res` still nonzero), finalize the chain head.  The
subsequent cross-pairing (`handle_bridge_pairings`) only appends new
records and mutates Bridged-state records (candidates are filtered to
`bridge_state_fn_table`), so it never changes an existing Finalized
record and is outside this core. -/
def handle_bridge_enter_chain_core (cfg : Config) (now : Timeval)
    (chain : CdrChain) (bridge_id : String) (channel : ChannelSnapshot)
    (cands : List (List CdrObject)) :
    CdrChain × List (List CdrObject) × Int :=
  let out := bridge_enter_loop cfg now bridge_id channel chain.records cands 1
  let records := if out.2.2 ≠ 0 then headFinalize cfg now out.1 else out.1
  (⟨records.headD chain.head, records.tail⟩, out.2.1, out.2.2)

/-! ## Derived predicates used in theorem statements -/

/-- The fields of a record the claims say a Finalized record never
changes (besides `end` and disposition). -/
def preservesFinalizedCore (r' cdr : CdrObject) : Prop :=
  r'.party_a = cdr.party_a ∧ r'.party_b = cdr.party_b ∧
  r'.state = cdr.state ∧ r'.start = cdr.start ∧ r'.answer = cdr.answer

/-- `end` and disposition unchanged. -/
def keepsEndDisposition (r' cdr : CdrObject) : Prop :=
  r'.end_tv = cdr.end_tv ∧ r'.disposition = cdr.disposition

/-- Lexicographic order on time values: seconds first, then microseconds. -/
def tvLe (a b : Timeval) : Prop :=
  a.tv_sec < b.tv_sec ∨ (a.tv_sec = b.tv_sec ∧ a.tv_usec ≤ b.tv_usec)

instance (tv : Timeval) : Decidable (tvWellFormed tv) := by
  unfold tvWellFormed; infer_instance

instance (a b : Timeval) : Decidable (tvLe a b) := by
  unfold tvLe; infer_instance

/-- The hangup causes `cdr_object_set_disposition` maps to a disposition. -/
def hangup_cause_in_disposition_map (c : Int) : Bool :=
  c == AST_CAUSE_BUSY || c == AST_CAUSE_CONGESTION ||
  c == AST_CAUSE_NO_ROUTE_DESTINATION || c == AST_CAUSE_UNREGISTERED ||
  c == AST_CAUSE_NORMAL_CLEARING || c == AST_CAUSE_NO_ANSWER

/-- The hangup cause `cdr_object_finalize` selects (Party A's when nonzero,
else Party B's) is nonzero but outside the disposition mapping. -/
def finalizeSelectsUnmappedCause (cdr : CdrObject) : Bool :=
  if cdr.party_a.snapshot.hangupcause ≠ 0 then
    !hangup_cause_in_disposition_map cdr.party_a.snapshot.hangupcause
  else
    match cdr.party_b with
    | some pb => pb.snapshot.hangupcause ≠ 0 &&
        !hangup_cause_in_disposition_map pb.snapshot.hangupcause
    | none => false

/-- The disposition value computed by `cdr_object_set_disposition`:
`dflt` is the record's current disposition, kept for unmapped causes. -/
def set_disposition_value (cfg : Config) (dflt : Disposition) (c : Int) :
    Disposition :=
  if c = AST_CAUSE_BUSY then .busy
  else if c = AST_CAUSE_CONGESTION then
    (if !cfg.congestion then .failed else .congestion)
  else if c = AST_CAUSE_NO_ROUTE_DESTINATION ∨ c = AST_CAUSE_UNREGISTERED then
    .failed
  else if c = AST_CAUSE_NORMAL_CLEARING ∨ c = AST_CAUSE_NO_ANSWER then
    .noanswer
  else dflt

/-- The disposition `cdr_object_finalize` leaves on a record whose `end`
was still unset. -/
def finalizeDisposition (cfg : Config) (cdr : CdrObject) : Disposition :=
  if cdr.disposition = .null then
    if !ast_tvzero cdr.answer then
      .answered
    else if cdr.party_a.snapshot.hangupcause ≠ 0 then
      set_disposition_value cfg cdr.disposition cdr.party_a.snapshot.hangupcause
    else
      match cdr.party_b with
      | some pb =>
        if pb.snapshot.hangupcause ≠ 0 then
          set_disposition_value cfg cdr.disposition pb.snapshot.hangupcause
        else .failed
      | none => .failed
  else cdr.disposition

/-- Build a variable list by running `set_variable` over a sequence of
insertions (each becoming the new list head). -/
def mkVars (inserts : List (String × String)) : VarList :=
  inserts.foldl (fun h v => set_variable h v.1 (some v.2)) []

/-- The public-record variable list as the specification words it: Party
A's variables in insertion order, then those Party B variables whose
names are not already present, also in insertion order. -/
def spec_public_record_vars (a_inserts b_inserts : List (String × String)) :
    VarList :=
  a_inserts ++ b_inserts.filter (fun v => !a_inserts.any (fun w => w.1 = v.1))

/-! ## Sample data for concrete evaluations -/

def cfg0 : Config := ⟨false, false, false⟩

def now0 : Timeval := ⟨500, 0⟩

def sampleSnapshot : ChannelSnapshot :=
  { name := "SIP/alice", uniqueid := "1111", linkedid := "1111",
    accountcode := "", caller_name := "Alice", caller_number := "100",
    caller_dnid := "", caller_subaddr := "", dialed_subaddr := "",
    exten := "s", context := "default", priority := 1, appl := "", data := "",
    chanstate := 0, amaflags := 0, hangupcause := 0,
    creationtime := ⟨100, 0⟩, flags := ⟨false, false, false⟩ }

def sampleCdr : CdrObject :=
  { party_a := ⟨sampleSnapshot, "", ⟨false⟩, []⟩, party_b := none,
    state := .single, disposition := .null, start := ⟨100, 0⟩,
    answer := tvZero, end_tv := tvZero, sequence := 1,
    flags := CdrFlags.none, linkedid := "1111", name := "SIP/alice",
    bridge := "", appl := "", data := "" }

/-- A non-dialed party without the PartyA flag. -/
def partyNoFlag : CdrPartySnapshot := ⟨sampleSnapshot, "", ⟨false⟩, []⟩

/-- A non-dialed party carrying the PartyA flag, same creation time. -/
def partyWithFlag : CdrPartySnapshot :=
  ⟨{ sampleSnapshot with name := "SIP/bob" }, "", ⟨true⟩, []⟩

/-- A party created 50 microseconds after `partyNoFlag`. -/
def partyLater : CdrPartySnapshot :=
  ⟨{ sampleSnapshot with name := "SIP/bob", creationtime := ⟨100, 50⟩ }, "",
   ⟨false⟩, []⟩

/-- A finalized record whose Party A is a Zombie and whose `end` was never
set (reachable with `endbeforehexten` off). -/
def finalizedZombieCdr : CdrObject :=
  { sampleCdr with
    state := .finalized,
    party_a := ⟨{ sampleSnapshot with flags := ⟨false, false, true⟩ }, "",
                ⟨false⟩, []⟩ }

/-- A finalized record whose `end` is set. -/
def finalizedEndedCdr : CdrObject :=
  { sampleCdr with
    state := .finalized, end_tv := ⟨400, 0⟩, disposition := .answered }

/-- A record finalized by a BUSY dial-end with `endbeforehexten` off: in
the Finalized state with a non-Null disposition, `end` unset and no
Zombie flag anywhere. -/
def busyFinalizedCdr : CdrObject :=
  { sampleCdr with state := .finalized, disposition := .busy }

def busyFinalizedChain : CdrChain := ⟨busyFinalizedCdr, []⟩

/-- A record whose Party A hung up with cause 1 (UNALLOCATED), which is
outside the disposition mapping. -/
def unmappedCauseCdr : CdrObject :=
  { sampleCdr with
    party_a := ⟨{ sampleSnapshot with hangupcause := 1 }, "", ⟨false⟩, []⟩ }

def initiatedCfg : Config := ⟨false, false, true⟩

/-- An answered record: answered at 1.0 s, ended at 4.6 s. -/
def billsecCdr : CdrObject :=
  { sampleCdr with answer := ⟨1, 0⟩, end_tv := ⟨4, 600000⟩ }

/-- A record waiting in the Dial state. -/
def dialCdr : CdrObject := { sampleCdr with state := .dial }

/-- A record in the DialedPending state, alone in its chain. -/
def dpCdr : CdrObject := { sampleCdr with state := .dialedPending }

def dpChain : CdrChain := ⟨dpCdr, []⟩

/-- The channel being dialed out of the DialedPending record's channel. -/
def peerSnapshot : ChannelSnapshot :=
  { sampleSnapshot with
    name := "SIP/bob", creationtime := ⟨101, 0⟩,
    flags := ⟨true, false, false⟩ }

def c7AInserts : List (String × String) := [("x", "1"), ("y", "2")]

def c7BInserts : List (String × String) := [("p", "3"), ("q", "4")]

/-- A chain whose only (hence last) record is finalized. -/
def finalizedChain : CdrChain := ⟨{ sampleCdr with state := .finalized }, []⟩

def c10Engine : Engine := [finalizedChain]

end Cdr

/-! # Supporting lemmas -/

namespace Cdr

theorem ast_tvzero_iff (tv : Timeval) : ast_tvzero tv = true ↔ tv = tvZero := by
  cases tv with
  | mk s u => simp [ast_tvzero, tvZero, Timeval.mk.injEq]

theorem set_disposition_eq (cfg : Config) (cdr : CdrObject) (c : Int) :
    cdr_object_set_disposition cfg cdr c =
      { cdr with disposition := set_disposition_value cfg cdr.disposition c } := by
  unfold cdr_object_set_disposition set_disposition_value
  split_ifs <;> rfl

theorem finalize_eq (cfg : Config) (now : Timeval) (cdr : CdrObject) :
    cdr_object_finalize cfg now cdr =
      if ast_tvzero cdr.end_tv then
        { cdr with end_tv := now, disposition := finalizeDisposition cfg cdr }
      else cdr := by
  cases hb : cdr.party_b with
  | none =>
    simp only [cdr_object_finalize, finalizeDisposition, set_disposition_eq, hb]
    split_ifs <;> simp_all
  | some pb =>
    simp only [cdr_object_finalize, finalizeDisposition, set_disposition_eq, hb]
    split_ifs <;> simp_all

theorem set_disposition_value_null_iff (cfg : Config) (dflt : Disposition)
    (c : Int) :
    (set_disposition_value cfg dflt c = .null ↔
      (dflt = .null ∧ hangup_cause_in_disposition_map c = false)) := by
  unfold set_disposition_value hangup_cause_in_disposition_map
  split_ifs <;> simp_all <;> omega

theorem finalizeDisposition_null_iff (cfg : Config) (cdr : CdrObject) :
    (finalizeDisposition cfg cdr = .null ↔
      (cdr.disposition = .null ∧ ast_tvzero cdr.answer = true ∧
        finalizeSelectsUnmappedCause cdr = true)) := by
  cases hb : cdr.party_b with
  | none =>
    unfold finalizeDisposition finalizeSelectsUnmappedCause
    rw [hb]
    split_ifs <;> simp_all [set_disposition_value_null_iff]
  | some pb =>
    unfold finalizeDisposition finalizeSelectsUnmappedCause
    rw [hb]
    split_ifs <;> simp_all [set_disposition_value_null_iff]
    split_ifs <;> simp_all [set_disposition_value_null_iff]

theorem transition_state_state (cfg : Config) (now : Timeval) (cdr : CdrObject)
    (s : CdrState) : (cdr_object_transition_state cfg now cdr s).state = s := by
  cases s with
  | single =>
    simp only [cdr_object_transition_state, cdr_object_check_party_a_answer]
    split_ifs <;> rfl
  | finalized =>
    simp only [cdr_object_transition_state]
    split_ifs with h
    · rfl
    · rw [finalize_eq]; split_ifs <;> rfl
  | pending => rfl
  | dial => rfl
  | dialedPending => rfl
  | bridged => rfl

theorem transition_finalized_keeps (cfg : Config) (now : Timeval)
    (cdr : CdrObject) (h : cdr.disposition ≠ .null) :
    (cdr_object_transition_state cfg now cdr .finalized).disposition =
      cdr.disposition := by
  simp only [cdr_object_transition_state]
  split_ifs with h1
  · rfl
  · rw [finalize_eq]
    split_ifs with h2
    · simp [finalizeDisposition, h]
    · rfl

theorem transition_dialedPending (cfg : Config) (now : Timeval)
    (cdr : CdrObject) :
    cdr_object_transition_state cfg now cdr .dialedPending =
      { cdr with state := .dialedPending } := rfl

theorem dial_status_to_disposition_spec (cfg : Config) (s : String) :
    dial_status_to_disposition cfg s =
      (if s = "ANSWER" then Disposition.answered
       else if s = "BUSY" then Disposition.busy
       else if s = "CANCEL" ∨ s = "NOANSWER" then Disposition.noanswer
       else if s = "CONGESTION" then
         (if cfg.congestion then Disposition.congestion else Disposition.failed)
       else Disposition.failed) := by
  unfold dial_status_to_disposition
  cases h : cfg.congestion <;> split_ifs <;> simp_all

theorem dial_status_to_disposition_ne_null (cfg : Config) (s : String) :
    dial_status_to_disposition cfg s ≠ .null := by
  unfold dial_status_to_disposition
  split_ifs <;> simp

end Cdr

/-! # Claim theorems -/

namespace Cdr

/-- C2: evaluation of `cdr_object_pick_party_a` at the claim's failing
input.  Both parties have equal dialed-ness, only the right one carries
the PartyA flag and the creation times tie; the claim requires the
flagged right party to be returned, but the source's second flag clause
compares `right` with itself and never fires, so the left party wins the
creation-time tie instead. -/
theorem C2_flag_eval :
    cdr_object_pick_party_a partyNoFlag partyWithFlag = partyNoFlag ∧
    partyNoFlag.flags.party_a = false ∧ partyWithFlag.flags.party_a = true ∧
    snapshot_is_dialed partyNoFlag.snapshot =
      snapshot_is_dialed partyWithFlag.snapshot ∧
    partyNoFlag ≠ partyWithFlag := by
  exact ⟨rfl, rfl, rfl, rfl, by decide⟩

/-- C9: with equal dialed-ness and equal PartyA-flag status,
`cdr_object_pick_party_a` returns the party with the earlier creation
time (seconds compared first, then microseconds), and on an exact tie
returns its left argument, whichever that is. -/
theorem C9_pick_party_a_time (l r : CdrPartySnapshot)
    (hd : snapshot_is_dialed l.snapshot = snapshot_is_dialed r.snapshot)
    (hf : l.flags.party_a = r.flags.party_a) :
    ((l.snapshot.creationtime.tv_sec < r.snapshot.creationtime.tv_sec ∨
       (l.snapshot.creationtime.tv_sec = r.snapshot.creationtime.tv_sec ∧
        l.snapshot.creationtime.tv_usec < r.snapshot.creationtime.tv_usec)) →
      cdr_object_pick_party_a l r = l) ∧
    ((r.snapshot.creationtime.tv_sec < l.snapshot.creationtime.tv_sec ∨
       (r.snapshot.creationtime.tv_sec = l.snapshot.creationtime.tv_sec ∧
        r.snapshot.creationtime.tv_usec < l.snapshot.creationtime.tv_usec)) →
      cdr_object_pick_party_a l r = r) ∧
    (l.snapshot.creationtime = r.snapshot.creationtime →
      cdr_object_pick_party_a l r = l ∧ cdr_object_pick_party_a r l = r) := by
  have h1 : (!snapshot_is_dialed l.snapshot && snapshot_is_dialed r.snapshot) = false := by
    rw [hd]; cases snapshot_is_dialed r.snapshot <;> rfl
  have h2 : (snapshot_is_dialed l.snapshot && !snapshot_is_dialed r.snapshot) = false := by
    rw [hd]; cases snapshot_is_dialed r.snapshot <;> rfl
  have h1' : (!snapshot_is_dialed r.snapshot && snapshot_is_dialed l.snapshot) = false := by
    rw [hd]; cases snapshot_is_dialed r.snapshot <;> rfl
  have h2' : (snapshot_is_dialed r.snapshot && !snapshot_is_dialed l.snapshot) = false := by
    rw [hd]; cases snapshot_is_dialed r.snapshot <;> rfl
  have h3 : (l.flags.party_a && !r.flags.party_a) = false := by
    rw [hf]; cases r.flags.party_a <;> rfl
  have h3' : (r.flags.party_a && !l.flags.party_a) = false := by
    rw [hf]; cases r.flags.party_a <;> rfl
  have h4 : (!r.flags.party_a && r.flags.party_a) = false := by
    cases r.flags.party_a <;> rfl
  have h4' : (!l.flags.party_a && l.flags.party_a) = false := by
    cases l.flags.party_a <;> rfl
  unfold cdr_object_pick_party_a
  simp only [h1, h2, h1', h2', h3, h3', h4, h4', Bool.false_eq_true, if_false]
  refine ⟨?_, ?_, ?_⟩
  · rintro (h | ⟨he, hu⟩) <;> split_ifs <;> first | rfl | omega
  · rintro (h | ⟨he, hu⟩) <;> split_ifs <;> first | rfl | omega
  · intro he
    constructor <;> split_ifs <;> first | rfl | (exfalso; rw [he] at *; omega)

/-- Witness for C9 at concrete parties: equal flags, and the left one
created 50 microseconds earlier wins. -/
theorem C9_pick_party_a_time_witness :
    snapshot_is_dialed partyNoFlag.snapshot =
      snapshot_is_dialed partyLater.snapshot ∧
    partyNoFlag.flags.party_a = partyLater.flags.party_a ∧
    cdr_object_pick_party_a partyNoFlag partyLater = partyNoFlag :=
  ⟨rfl, rfl,
   (C9_pick_party_a_time partyNoFlag partyLater rfl rfl).1 (by decide)⟩

/-- C5: billsec is 0 when `answer` is unset; otherwise it is the whole
seconds of `end - answer`, rounded up by one exactly when
`initiatedseconds` is configured and the sub-second part is at least
500 ms (500000 µs); and a positive billsec implies `answer` is set. -/
theorem C5_billsec (cfg : Config) (cdr : CdrObject)
    (hwa : tvWellFormed cdr.answer) (hwe : tvWellFormed cdr.end_tv)
    (hle : tvLe cdr.answer cdr.end_tv) :
    (cdr.answer = tvZero → cdr_object_get_billsec cfg cdr = 0) ∧
    (0 < cdr_object_get_billsec cfg cdr → cdr.answer ≠ tvZero) ∧
    (cdr.answer ≠ tvZero →
      cdr_object_get_billsec cfg cdr =
        (let d := (cdr.end_tv.tv_sec - cdr.answer.tv_sec) * 1000000 +
                  (cdr.end_tv.tv_usec - cdr.answer.tv_usec)
         if cfg.initiatedseconds ∧ 500000 ≤ d % 1000000 then d / 1000000 + 1
         else d / 1000000)) := by
  obtain ⟨ha0, ha1⟩ := hwa
  obtain ⟨he0, he1⟩ := hwe
  have hd0 : 0 ≤ (cdr.end_tv.tv_sec - cdr.answer.tv_sec) * 1000000 +
      (cdr.end_tv.tv_usec - cdr.answer.tv_usec) := by
    rcases hle with h | ⟨h, h'⟩ <;> nlinarith
  have hdiff : ast_tvdiff_ms cdr.end_tv cdr.answer =
      ((cdr.end_tv.tv_sec - cdr.answer.tv_sec) * 1000000 +
        (cdr.end_tv.tv_usec - cdr.answer.tv_usec)) / 1000 := by
    unfold ast_tvdiff_ms
    rw [Int.tdiv_eq_ediv (by omega) (by norm_num)]
    omega
  refine ⟨?_, ?_, ?_⟩
  · intro hz
    unfold cdr_object_get_billsec
    rw [if_pos ((ast_tvzero_iff cdr.answer).mpr hz)]
  · intro hpos hz
    unfold cdr_object_get_billsec at hpos
    rw [if_pos ((ast_tvzero_iff cdr.answer).mpr hz)] at hpos
    omega
  · intro hnz
    have hz : ast_tvzero cdr.answer = false := by
      cases h : ast_tvzero cdr.answer
      · rfl
      · exact absurd ((ast_tvzero_iff cdr.answer).mp h) hnz
    unfold cdr_object_get_billsec
    rw [hz]
    simp only [Bool.false_eq_true, if_false, hdiff]
    set d := (cdr.end_tv.tv_sec - cdr.answer.tv_sec) * 1000000 +
      (cdr.end_tv.tv_usec - cdr.answer.tv_usec) with hdef
    have hms0 : 0 ≤ d / 1000 := Int.ediv_nonneg hd0 (by norm_num)
    rw [Int.tmod_eq_emod hms0 (by norm_num), Int.tdiv_eq_ediv hms0 (by norm_num)]
    have h1 : (d / 1000) % 1000 = (d % 1000000) / 1000 := by omega
    have h2 : (d / 1000) / 1000 = d / 1000000 := by omega
    have h3 : ((d % 1000000) / 1000 ≥ 500) ↔ (500000 ≤ d % 1000000) := by omega
    split_ifs with hc1 hc2 hc2
    · rw [h2]
    · exact absurd ⟨hc1.1, h3.mp (h1 ▸ hc1.2)⟩ hc2
    · exact absurd ⟨hc2.1, h1 ▸ (h3.mpr hc2.2)⟩ hc1
    · rw [h2]

/-- Witness for C5: answered at 1.0 s, ended at 4.6 s with
`initiatedseconds` on gives billsec 4 (3.6 s rounded up). -/
theorem C5_billsec_witness :
    tvWellFormed billsecCdr.answer ∧ tvWellFormed billsecCdr.end_tv ∧
    tvLe billsecCdr.answer billsecCdr.end_tv ∧
    cdr_object_get_billsec initiatedCfg billsecCdr = 4 :=
  ⟨by decide, by decide, by decide,
   ((C5_billsec initiatedCfg billsecCdr (by decide) (by decide)
      (by decide)).2.2 (by decide)).trans (by decide)⟩

end Cdr

namespace Cdr

/-! Supporting lemmas for the Finalized-record invariant -/

theorem finalize_of_end_set (cfg : Config) (now : Timeval) (cdr : CdrObject)
    (h : ast_tvzero cdr.end_tv = false) :
    cdr_object_finalize cfg now cdr = cdr := by
  rw [finalize_eq]
  simp [h]

theorem finalize_core (cfg : Config) (now : Timeval) (cdr : CdrObject) :
    preservesFinalizedCore (cdr_object_finalize cfg now cdr) cdr := by
  unfold preservesFinalizedCore
  rw [finalize_eq]
  split_ifs <;> simp

theorem fin_papa_core (cfg : Config) (now : Timeval) (cdr : CdrObject)
    (snap : ChannelSnapshot) :
    preservesFinalizedCore
      (finalized_state_process_party_a cfg now cdr snap).1 cdr := by
  unfold finalized_state_process_party_a
  split_ifs with hz
  · exact finalize_core cfg now cdr
  · exact ⟨rfl, rfl, rfl, rfl, rfl⟩

theorem fin_papa_keeps (cfg : Config) (now : Timeval) (cdr : CdrObject)
    (snap : ChannelSnapshot)
    (h : ¬(cdr.party_a.snapshot.flags.zombie = true ∧
        ast_tvzero cdr.end_tv = true)) :
    keepsEndDisposition
      (finalized_state_process_party_a cfg now cdr snap).1 cdr := by
  unfold finalized_state_process_party_a
  split_ifs with hz
  · have he : ast_tvzero cdr.end_tv = false := by
      cases hx : ast_tvzero cdr.end_tv
      · rfl
      · exact absurd ⟨hz, hx⟩ h
    show keepsEndDisposition (cdr_object_finalize cfg now cdr) cdr
    rw [finalize_of_end_set cfg now cdr he]
    exact ⟨rfl, rfl⟩
  · exact ⟨rfl, rfl⟩

theorem papa_dispatch_finalized (cfg : Config) (now : Timeval)
    (cdr : CdrObject) (snap : ChannelSnapshot) (h : cdr.state = .finalized) :
    process_party_a_dispatch cfg now cdr snap =
      finalized_state_process_party_a cfg now cdr snap := by
  unfold process_party_a_dispatch
  rw [h]

theorem bridge_enter_loop_length (cfg : Config) (now : Timeval)
    (bid : String) (chan : ChannelSnapshot) :
    ∀ (records : List CdrObject) (cands : List (List CdrObject)) (res : Int),
      (bridge_enter_loop cfg now bid chan records cands res).1.length =
        records.length := by
  intro records
  induction records with
  | nil => intro cands res; rfl
  | cons r rest ih =>
    intro cands res
    unfold bridge_enter_loop
    simp [ih]

theorem bridge_enter_loop_get_finalized (cfg : Config) (now : Timeval)
    (bid : String) (chan : ChannelSnapshot) :
    ∀ (records : List CdrObject) (cands : List (List CdrObject)) (res : Int)
      (i : Nat) (cdr : CdrObject),
      records.get? i = some cdr → cdr.state = .finalized →
      (bridge_enter_loop cfg now bid chan records cands res).1.get? i =
        some (finalized_state_process_party_a cfg now cdr chan).1 := by
  intro records
  induction records with
  | nil => intro cands res i cdr h; simp at h
  | cons r rest ih =>
    intro cands res i cdr hget hfin
    unfold bridge_enter_loop
    cases i with
    | zero =>
      have hr : r = cdr := by simpa using hget
      subst hr
      rw [papa_dispatch_finalized cfg now r chan hfin]
      have hstate :
          (finalized_state_process_party_a cfg now r chan).1.state =
            CdrState.finalized := by
        rw [(fin_papa_core cfg now r chan).2.2.1, hfin]
      simp [hstate, has_process_bridge_enter]
    | succ n =>
      have hget2 : rest.get? n = some cdr := by simpa using hget
      simp only [List.get?_cons_succ]
      exact ih _ _ n cdr hget2 hfin

theorem headFinalize_get_succ (cfg : Config) (now : Timeval)
    (l : List CdrObject) (n : Nat) :
    (headFinalize cfg now l).get? (n + 1) = l.get? (n + 1) := by
  cases l <;> simp [headFinalize]

theorem chain_records_reconstruct (l : List CdrObject) (d : CdrObject)
    (h : l ≠ []) : (CdrChain.records ⟨l.headD d, l.tail⟩) = l := by
  cases l with
  | nil => exact absurd rfl h
  | cons x xs => simp [CdrChain.records]

/-- C4 counterexample, refuting both directions of the claim.  Forward:
finalize runs to completion on a never-finalized record (it sets `end`),
yet with `answer` unset and Party A hangup cause 1 — nonzero but outside
the disposition mapping — the disposition is still Null afterwards.
Reverse: an accepted ANSWER dial-end gives a record a non-Null
disposition (Answered) while `end` stays unset, i.e. without the record
ever being finalized. -/
theorem C4_counterexample :
    unmappedCauseCdr.disposition = Disposition.null ∧
    ast_tvzero unmappedCauseCdr.answer = true ∧
    unmappedCauseCdr.party_a.snapshot.hangupcause = 1 ∧
    ast_tvzero (cdr_object_finalize cfg0 now0 unmappedCauseCdr).end_tv = false ∧
    (cdr_object_finalize cfg0 now0 unmappedCauseCdr).disposition =
      Disposition.null ∧
    (dial_state_process_dial_end cfg0 now0 dialCdr (some sampleSnapshot)
        none "ANSWER").2 = 0 ∧
    (dial_state_process_dial_end cfg0 now0 dialCdr (some sampleSnapshot)
        none "ANSWER").1.disposition = Disposition.answered ∧
    ast_tvzero (dial_state_process_dial_end cfg0 now0 dialCdr
        (some sampleSnapshot) none "ANSWER").1.end_tv = true := by
  refine ⟨rfl, rfl, rfl, by decide, by decide, by decide, by decide, by decide⟩

/-- C4 (amended): a single `cdr_object_finalize` call leaves the
disposition Null exactly when it was already Null and either `end` was
already set (the call is a no-op) or `answer` is unset and the selected
hangup cause is nonzero but outside the mapping; finalize never resets a
non-Null disposition.  The claimed equivalence "Null iff never
finalized" holds in neither direction: besides the unmapped-cause case,
an accepted dial-end sets a non-Null disposition directly — and in the
ANSWER case leaves `end` untouched — on a record that was never
finalized. -/
theorem C4_disposition_null_amended (cfg : Config) (now : Timeval)
    (cdr : CdrObject) :
    ((cdr_object_finalize cfg now cdr).disposition = .null ↔
      (cdr.disposition = .null ∧
        (ast_tvzero cdr.end_tv = false ∨
          (ast_tvzero cdr.answer = true ∧
            finalizeSelectsUnmappedCause cdr = true)))) ∧
    (cdr.disposition ≠ .null →
      (cdr_object_finalize cfg now cdr).disposition = cdr.disposition) ∧
    (∀ (caller peer : Option ChannelSnapshot) (dial_status : String),
      (dial_state_process_dial_end cfg now cdr caller peer dial_status).2 = 0 →
        (dial_state_process_dial_end cfg now cdr caller peer
            dial_status).1.disposition ≠ .null) ∧
    (∀ (caller peer : Option ChannelSnapshot) (dial_status : String),
      (dial_state_process_dial_end cfg now cdr caller peer dial_status).2 = 0 →
      dial_status_to_disposition cfg dial_status = .answered →
        (dial_state_process_dial_end cfg now cdr caller peer
            dial_status).1.end_tv = cdr.end_tv) := by
  refine ⟨?_, ?_, ?_, ?_⟩
  · rw [finalize_eq]
    cases he : ast_tvzero cdr.end_tv with
    | true => simp [finalizeDisposition_null_iff]
    | false => simp
  · intro h
    rw [finalize_eq]
    split_ifs with he
    · simp [finalizeDisposition, h]
    · rfl
  · intro caller peer dial_status hacc
    unfold dial_state_process_dial_end at hacc ⊢
    cases hb : cdr.party_b with
    | none =>
      simp only [hb] at hacc ⊢
      split_ifs with hd
      · rw [transition_dialedPending]
        simp [hd]
      · simp [transition_finalized_keeps, dial_status_to_disposition_ne_null]
    | some pb =>
      simp only [hb] at hacc ⊢
      by_cases h1 : pb.snapshot.name ≠ (peer.getD default).name
      · rw [if_pos h1] at hacc
        simp at hacc
      · rw [if_neg h1]
        split_ifs with hd
        · rw [transition_dialedPending]
          simp [hd]
        · simp [transition_finalized_keeps, dial_status_to_disposition_ne_null]
  · intro caller peer dial_status hacc hd
    unfold dial_state_process_dial_end at hacc ⊢
    cases hb : cdr.party_b with
    | none =>
      simp only [hb] at hacc ⊢
      simp [hd, transition_dialedPending]
    | some pb =>
      simp only [hb] at hacc ⊢
      by_cases h1 : pb.snapshot.name ≠ (peer.getD default).name
      · rw [if_pos h1] at hacc
        simp at hacc
      · rw [if_neg h1]
        simp [hd, transition_dialedPending]

/-- Witness for C4 (amended) at a concrete accepted ANSWER dial-end. -/
theorem C4_disposition_null_amended_witness :
    (dial_state_process_dial_end cfg0 now0 dialCdr (some sampleSnapshot)
        none "ANSWER").2 = 0 ∧
    dial_status_to_disposition cfg0 "ANSWER" = Disposition.answered ∧
    (dial_state_process_dial_end cfg0 now0 dialCdr (some sampleSnapshot)
        none "ANSWER").1.end_tv = dialCdr.end_tv :=
  ⟨by decide, by decide,
   (C4_disposition_null_amended cfg0 now0 dialCdr).2.2.2 (some sampleSnapshot)
     none "ANSWER" (by decide) (by decide)⟩

/-- C3 counterexample: two routed events that change a Finalized
record's `end` (and, in the first case, its disposition).  First, a
Party-A update on a Finalized record with a Zombie stored Party A and
`end` unset stamps `end` and derives the disposition.  Second — with no
Zombie anywhere — a bridge-enter on a chain whose only record is
Finalized (reachable after a BUSY dial-end with `endbeforehexten` off)
is refused by every record, so the handler finalizes the chain head,
stamping its `end`. -/
theorem C3_counterexample :
    finalizedZombieCdr.state = CdrState.finalized ∧
    (process_party_a_dispatch cfg0 now0 finalizedZombieCdr
        sampleSnapshot).1.end_tv ≠ finalizedZombieCdr.end_tv ∧
    (process_party_a_dispatch cfg0 now0 finalizedZombieCdr
        sampleSnapshot).1.disposition ≠ finalizedZombieCdr.disposition ∧
    busyFinalizedCdr.state = CdrState.finalized ∧
    busyFinalizedCdr.party_a.snapshot.flags.zombie = false ∧
    (handle_bridge_enter_chain_core cfg0 now0 busyFinalizedChain "b1"
        sampleSnapshot []).1.head.end_tv ≠ busyFinalizedCdr.end_tv := by
  refine ⟨rfl, by decide, by decide, rfl, rfl, by decide⟩

/-- C3 (amended): a Finalized record never changes its `party_a`,
`party_b`, state, `start` or `answer` on any routed event; `end` and
disposition can still be set (at most once, by a further finalize) when
a Party-A update arrives while the stored Party A is a Zombie, when the
record heads a chain whose bridge-enter no record handles, or when the
record's Party B channel leaves the system; the Party-B update scan and
the bridge-leave Party-B callback never touch a Finalized record, and
dial-begin, dial-end, Party-B-update and bridge-leave events are never
dispatched to one (its vtable has no handlers for them). -/
theorem C3_finalized_amended (cfg : Config) (now : Timeval) :
    (∀ (cdr : CdrObject) (snapshot : ChannelSnapshot),
      cdr.state = .finalized →
      preservesFinalizedCore
        (process_party_a_dispatch cfg now cdr snapshot).1 cdr ∧
      (¬(cdr.party_a.snapshot.flags.zombie = true ∧
          ast_tvzero cdr.end_tv = true) →
        keepsEndDisposition
          (process_party_a_dispatch cfg now cdr snapshot).1 cdr)) ∧
    (∀ (chain : CdrChain) (bridge_id : String) (channel : ChannelSnapshot)
        (cands : List (List CdrObject)) (i : Nat) (cdr : CdrObject),
      chain.records.get? i = some cdr → cdr.state = .finalized →
      ∃ r', (handle_bridge_enter_chain_core cfg now chain bridge_id channel
          cands).1.records.get? i = some r' ∧
        preservesFinalizedCore r' cdr ∧
        (¬(cdr.party_a.snapshot.flags.zombie = true ∧
            ast_tvzero cdr.end_tv = true) →
         ¬(i = 0 ∧ (handle_bridge_enter_chain_core cfg now chain bridge_id
              channel cands).2.2 ≠ 0 ∧ ast_tvzero cdr.end_tv = true) →
          keepsEndDisposition r' cdr)) ∧
    (∀ (records : List CdrObject) (name : String) (i : Nat) (cdr : CdrObject),
      records.get? i = some cdr → cdr.state = .finalized →
      ∃ r', (cdr_object_finalize_party_b cfg now records name).get? i =
          some r' ∧
        preservesFinalizedCore r' cdr ∧
        (ast_tvzero cdr.end_tv = false → keepsEndDisposition r' cdr)) ∧
    (∀ (records : List CdrObject) (snapshot : ChannelSnapshot) (i : Nat)
        (cdr : CdrObject),
      records.get? i = some cdr → cdr.state = .finalized →
      (cdr_object_update_party_b cfg now records snapshot).get? i = some cdr) ∧
    (∀ (chain : CdrChain) (bridge_id channel_name : String) (i : Nat)
        (cdr : CdrObject),
      chain.records.get? i = some cdr → cdr.state = .finalized →
      (cdr_object_party_b_left_bridge_cb cfg now chain bridge_id
        channel_name).records.get? i = some cdr) ∧
    (has_process_dial_begin .finalized = false ∧
     has_process_dial_end .finalized = false ∧
     has_process_party_b .finalized = false ∧
     has_process_bridge_leave .finalized = false) := by
  refine ⟨?_, ?_, ?_, ?_, ?_, rfl, rfl, rfl, rfl⟩
  · intro cdr snapshot h
    rw [papa_dispatch_finalized cfg now cdr snapshot h]
    exact ⟨fin_papa_core cfg now cdr snapshot,
           fun hg => fin_papa_keeps cfg now cdr snapshot hg⟩
  · intro chain bridge_id channel cands i cdr hget hfin
    have hlen := bridge_enter_loop_length cfg now bridge_id channel
      chain.records cands 1
    have hgetL := bridge_enter_loop_get_finalized cfg now bridge_id channel
      chain.records cands 1 i cdr hget hfin
    have hres_eq : (handle_bridge_enter_chain_core cfg now chain bridge_id
        channel cands).2.2 =
        (bridge_enter_loop cfg now bridge_id channel chain.records cands
          1).2.2 := rfl
    have hne : (bridge_enter_loop cfg now bridge_id channel chain.records
        cands 1).1 ≠ [] := by
      intro h0
      rw [h0] at hlen
      simp [CdrChain.records] at hlen
    have hrecords : (handle_bridge_enter_chain_core cfg now chain bridge_id
        channel cands).1.records =
        (if (bridge_enter_loop cfg now bridge_id channel chain.records cands
            1).2.2 ≠ 0 then
          headFinalize cfg now (bridge_enter_loop cfg now bridge_id channel
            chain.records cands 1).1
        else (bridge_enter_loop cfg now bridge_id channel chain.records
          cands 1).1) := by
      apply chain_records_reconstruct
      split_ifs with hx
      · cases hl : (bridge_enter_loop cfg now bridge_id channel chain.records
          cands 1).1 with
        | nil => exact absurd hl hne
        | cons a as => simp [headFinalize]
      · exact hne
    by_cases hres : (bridge_enter_loop cfg now bridge_id channel chain.records
        cands 1).2.2 = 0
    · refine ⟨(finalized_state_process_party_a cfg now cdr channel).1,
        ?_, fin_papa_core cfg now cdr channel, fun hg _ =>
        fin_papa_keeps cfg now cdr channel hg⟩
      rw [hrecords, if_neg (by simpa using hres)]
      exact hgetL
    · cases i with
      | zero =>
        cases hl : (bridge_enter_loop cfg now bridge_id channel chain.records
            cands 1).1 with
        | nil => exact absurd hl hne
        | cons a as =>
          have ha : a = (finalized_state_process_party_a cfg now cdr
              channel).1 := by
            rw [hl] at hgetL
            simpa using hgetL
          subst ha
          refine ⟨cdr_object_finalize cfg now
            ((finalized_state_process_party_a cfg now cdr channel).1),
            ?_, ?_, ?_⟩
          · rw [hrecords, if_pos hres, hl]
            simp [headFinalize]
          · have h1 := finalize_core cfg now
              ((finalized_state_process_party_a cfg now cdr channel).1)
            have h2 := fin_papa_core cfg now cdr channel
            exact ⟨h1.1.trans h2.1, h1.2.1.trans h2.2.1,
              h1.2.2.1.trans h2.2.2.1, h1.2.2.2.1.trans h2.2.2.2.1,
              h1.2.2.2.2.trans h2.2.2.2.2⟩
          · intro hg1 hg2
            have he : ast_tvzero cdr.end_tv = false := by
              cases hx : ast_tvzero cdr.end_tv
              · rfl
              · exact absurd ⟨rfl, hres, hx⟩ hg2
            have hpapa := fin_papa_keeps cfg now cdr channel hg1
            have he2 : ast_tvzero
                ((finalized_state_process_party_a cfg now cdr
                  channel).1).end_tv = false := by
              rw [hpapa.1, he]
            rw [finalize_of_end_set cfg now _ he2]
            exact hpapa
      | succ n =>
        refine ⟨(finalized_state_process_party_a cfg now cdr channel).1,
          ?_, fin_papa_core cfg now cdr channel, fun hg _ =>
          fin_papa_keeps cfg now cdr channel hg⟩
        rw [hrecords, if_pos hres, headFinalize_get_succ]
        exact hgetL
  · intro records name i cdr hget hfin
    unfold cdr_object_finalize_party_b
    rw [List.get?_map, hget]
    cases hb : cdr.party_b with
    | none =>
      exact ⟨cdr, by simp [hb], ⟨rfl, rfl, rfl, rfl, rfl⟩, fun _ => ⟨rfl, rfl⟩⟩
    | some pb =>
      by_cases hn : pb.snapshot.name = name
      · refine ⟨cdr_object_finalize cfg now cdr, by simp [hb, hn],
          finalize_core cfg now cdr, fun he => ?_⟩
        rw [finalize_of_end_set cfg now cdr he]
        exact ⟨rfl, rfl⟩
      · exact ⟨cdr, by simp [hb, hn], ⟨rfl, rfl, rfl, rfl, rfl⟩,
          fun _ => ⟨rfl, rfl⟩⟩
  · intro records snapshot i cdr hget hfin
    unfold cdr_object_update_party_b
    rw [List.get?_map, hget]
    simp [hfin, has_process_party_b]
  · intro chain bridge_id channel_name i cdr hget hfin
    unfold cdr_object_party_b_left_bridge_cb
    split_ifs with hbr
    · exact hget
    · have : (CdrChain.records
          ⟨(fun it_cdr =>
              if it_cdr.state = .bridged then
                match it_cdr.party_b with
                | some pb =>
                  if pb.snapshot.name = channel_name then
                    let r := bridge_state_process_bridge_leave cfg now it_cdr
                      bridge_id channel_name
                    if r.2 = 0 then cdr_object_finalize cfg now r.1 else r.1
                  else it_cdr
                | none => it_cdr
              else it_cdr) chain.head,
            chain.rest.map (fun it_cdr =>
              if it_cdr.state = .bridged then
                match it_cdr.party_b with
                | some pb =>
                  if pb.snapshot.name = channel_name then
                    let r := bridge_state_process_bridge_leave cfg now it_cdr
                      bridge_id channel_name
                    if r.2 = 0 then cdr_object_finalize cfg now r.1 else r.1
                  else it_cdr
                | none => it_cdr
              else it_cdr)⟩) =
        chain.records.map (fun it_cdr =>
          if it_cdr.state = .bridged then
            match it_cdr.party_b with
            | some pb =>
              if pb.snapshot.name = channel_name then
                let r := bridge_state_process_bridge_leave cfg now it_cdr
                  bridge_id channel_name
                if r.2 = 0 then cdr_object_finalize cfg now r.1 else r.1
              else it_cdr
            | none => it_cdr
          else it_cdr) := by
        simp [CdrChain.records]
      rw [this, List.get?_map, hget]
      simp [hfin]

/-- Witness for C3 (amended): a properly finalized record (with `end`
set) is untouched by a further Party-A update. -/
theorem C3_finalized_amended_witness :
    finalizedEndedCdr.state = CdrState.finalized ∧
    preservesFinalizedCore
      (process_party_a_dispatch cfg0 now0 finalizedEndedCdr
        sampleSnapshot).1 finalizedEndedCdr ∧
    keepsEndDisposition
      (process_party_a_dispatch cfg0 now0 finalizedEndedCdr
        sampleSnapshot).1 finalizedEndedCdr :=
  ⟨rfl,
   ((C3_finalized_amended cfg0 now0).1 finalizedEndedCdr sampleSnapshot
     rfl).1,
   ((C3_finalized_amended cfg0 now0).1 finalizedEndedCdr sampleSnapshot
     rfl).2 (by decide)⟩

/-- C6: when a record in the Dial state accepts a dial-end (result 0),
its disposition is the claim's mapping of the dial status, and it moves
to DialedPending exactly when that disposition is Answered, otherwise to
Finalized. -/
theorem C6_dial_end (cfg : Config) (now : Timeval) (cdr : CdrObject)
    (caller peer : Option ChannelSnapshot) (dial_status : String)
    (hst : cdr.state = .dial)
    (hacc : (dial_state_process_dial_end cfg now cdr caller peer dial_status).2 = 0) :
    ((dial_state_process_dial_end cfg now cdr caller peer dial_status).1.disposition =
      (if dial_status = "ANSWER" then Disposition.answered
       else if dial_status = "BUSY" then Disposition.busy
       else if dial_status = "CANCEL" ∨ dial_status = "NOANSWER" then
         Disposition.noanswer
       else if dial_status = "CONGESTION" then
         (if cfg.congestion then Disposition.congestion else Disposition.failed)
       else Disposition.failed)) ∧
    ((dial_state_process_dial_end cfg now cdr caller peer dial_status).1.state =
        .dialedPending ↔
      dial_status_to_disposition cfg dial_status = .answered) ∧
    (dial_status_to_disposition cfg dial_status ≠ .answered →
      (dial_state_process_dial_end cfg now cdr caller peer dial_status).1.state =
        .finalized) := by
  rw [← dial_status_to_disposition_spec]
  unfold dial_state_process_dial_end at hacc ⊢
  cases hb : cdr.party_b with
  | none =>
    simp only [hb] at hacc ⊢
    split_ifs with hd
    · refine ⟨?_, ?_, fun hne => absurd hd hne⟩
      · rw [transition_dialedPending, hd]
      · simp [transition_dialedPending, hd]
    · refine ⟨?_, ?_, fun _ => ?_⟩
      · simpa using transition_finalized_keeps cfg now _
          (by simpa using dial_status_to_disposition_ne_null cfg dial_status)
      · simp [transition_state_state, hd]
      · exact transition_state_state cfg now _ _
  | some pb =>
    simp only [hb] at hacc ⊢
    split_ifs at hacc ⊢ with h1 hd
    · simp at hacc
    · refine ⟨?_, ?_, fun hne => absurd hd hne⟩
      · rw [transition_dialedPending, hd]
      · simp [transition_dialedPending, hd]
    · refine ⟨?_, ?_, fun _ => ?_⟩
      · simpa using transition_finalized_keeps cfg now _
          (by simpa using dial_status_to_disposition_ne_null cfg dial_status)
      · simp [transition_state_state, hd]
      · exact transition_state_state cfg now _ _

/-- Witness for C6: a BUSY dial-end on a Dial-state record is accepted,
sets disposition Busy and finalizes the record. -/
theorem C6_dial_end_witness :
    dialCdr.state = CdrState.dial ∧
    (dial_state_process_dial_end cfg0 now0 dialCdr (some sampleSnapshot)
        none "BUSY").2 = 0 ∧
    (dial_state_process_dial_end cfg0 now0 dialCdr (some sampleSnapshot)
        none "BUSY").1.disposition = Disposition.busy ∧
    (dial_state_process_dial_end cfg0 now0 dialCdr (some sampleSnapshot)
        none "BUSY").1.state = CdrState.finalized :=
  ⟨rfl, by decide,
   ((C6_dial_end cfg0 now0 dialCdr (some sampleSnapshot) none "BUSY" rfl
      (by decide)).1).trans (by decide),
   (C6_dial_end cfg0 now0 dialCdr (some sampleSnapshot) none "BUSY" rfl
      (by decide)).2.2 (by decide)⟩

end Cdr

namespace Cdr

/-- C8: `ast_cdr_setvar` rejects every read-only name — any
capitalisation of clid, src, dst, dcontext, channel, dstchannel,
lastapp, lastdata, start, answer, end, duration, billsec, disposition,
amaflags, accountcode, uniqueid, linkedid, userfield or sequence —
returning -1 and leaving every chain and variable list unchanged. -/
theorem C8_setvar_readonly (engine : Engine) (channel_name name : String)
    (value : Option String)
    (h : toLowerStr name = "clid" ∨ toLowerStr name = "src" ∨
      toLowerStr name = "dst" ∨ toLowerStr name = "dcontext" ∨
      toLowerStr name = "channel" ∨ toLowerStr name = "dstchannel" ∨
      toLowerStr name = "lastapp" ∨ toLowerStr name = "lastdata" ∨
      toLowerStr name = "start" ∨ toLowerStr name = "answer" ∨
      toLowerStr name = "end" ∨ toLowerStr name = "duration" ∨
      toLowerStr name = "billsec" ∨ toLowerStr name = "disposition" ∨
      toLowerStr name = "amaflags" ∨ toLowerStr name = "accountcode" ∨
      toLowerStr name = "uniqueid" ∨ toLowerStr name = "linkedid" ∨
      toLowerStr name = "userfield" ∨ toLowerStr name = "sequence") :
    ast_cdr_setvar engine channel_name name value = (-1, engine) := by
  have hc : (cdr_readonly_vars.any fun v => strCaseEq name v) = true := by
    rcases h with h|h|h|h|h|h|h|h|h|h|h|h|h|h|h|h|h|h|h|h <;>
      simp only [cdr_readonly_vars, strCaseEq, h] <;> decide
  unfold ast_cdr_setvar
  rw [if_pos hc]

/-- Witness for C8: setting `LinkedID` (mixed case) fails and leaves the
engine untouched. -/
theorem C8_setvar_readonly_witness :
    toLowerStr "LinkedID" = "linkedid" ∧
    ast_cdr_setvar [] "SIP/x" "LinkedID" (some "v") = (-1, []) :=
  ⟨by decide, C8_setvar_readonly [] "SIP/x" "LinkedID" (some "v") (by decide)⟩

/-- C10: when the chain found for a channel has a finalized last record,
`ast_cdr_fork` fails with -1 and the engine — every chain, every record —
is returned unchanged. -/
theorem C10_fork_finalized (cfg : Config) (now : Timeval) (seq : Nat)
    (engine : Engine) (channel_name : String) (options : CdrFlags)
    (chain : CdrChain)
    (hfind : engineFindChannel engine channel_name = some chain)
    (hfin : chain.last.state = .finalized) :
    ast_cdr_fork cfg now seq engine channel_name options = (-1, engine) := by
  unfold ast_cdr_fork
  rw [hfind]
  simp [hfin]

/-- Witness for C10 on a one-chain engine whose only record is
finalized. -/
theorem C10_fork_finalized_witness :
    engineFindChannel c10Engine "SIP/alice" = some finalizedChain ∧
    finalizedChain.last.state = CdrState.finalized ∧
    ast_cdr_fork cfg0 now0 5 c10Engine "SIP/alice" CdrFlags.none =
      (-1, c10Engine) :=
  ⟨by decide, rfl,
   C10_fork_finalized cfg0 now0 5 c10Engine "SIP/alice" CdrFlags.none
     finalizedChain (by decide) rfl⟩

end Cdr

namespace Cdr

theorem removeFirst_no_match (n : String) (l : VarList)
    (h : ∀ w ∈ l, strCaseEq w.1 n = false) :
    set_variable.removeFirst n l = l := by
  induction l with
  | nil => rfl
  | cons w rest ih =>
    unfold set_variable.removeFirst
    rw [h w (by simp)]
    simp only [Bool.false_eq_true, if_false]
    rw [ih (fun v hv => h v (by simp [hv]))]

theorem mkVars_aux (l : List (String × String)) (acc : VarList)
    (hdisj : ∀ v ∈ l, ∀ w ∈ acc, strCaseEq w.1 v.1 = false)
    (hl : l.Pairwise (fun v w => toLowerStr v.1 ≠ toLowerStr w.1)) :
    l.foldl (fun h v => set_variable h v.1 (some v.2)) acc =
      l.reverse ++ acc := by
  induction l generalizing acc with
  | nil => rfl
  | cons v rest ih =>
    rw [List.pairwise_cons] at hl
    have hstep : set_variable acc v.1 (some v.2) = v :: acc := by
      unfold set_variable
      rw [removeFirst_no_match v.1 acc (fun w hw => hdisj v (by simp) w hw)]
    simp only [List.foldl_cons, hstep]
    rw [ih (v :: acc) ?_ hl.2]
    · simp
    · intro u hu w hw
      rcases List.mem_cons.mp hw with hw1 | hw2
      · have hne : toLowerStr v.1 ≠ toLowerStr u.1 := hl.1 u hu
        rw [hw1]
        simp [strCaseEq, hne]
      · exact hdisj u (by simp [hu]) w hw2

/-- A sequence of `set_variable` insertions with pairwise
case-insensitively distinct names stores the variables in reverse
insertion order (most recent first). -/
theorem mkVars_distinct (l : List (String × String))
    (hl : l.Pairwise (fun v w => toLowerStr v.1 ≠ toLowerStr w.1)) :
    mkVars l = l.reverse := by
  unfold mkVars
  rw [mkVars_aux l [] (fun v _ w hw => absurd hw (List.not_mem_nil w)) hl]
  simp

/-- `copy_variables` on all-valid variables reverses the source list onto
the destination's head. -/
theorem copy_variables_all_valid (t f : VarList)
    (h : ∀ v ∈ f, v.1 ≠ "" ∧ v.2 ≠ "") :
    copy_variables t f = f.reverse ++ t := by
  induction f generalizing t with
  | nil => rfl
  | cons v rest ih =>
    unfold copy_variables
    simp only [List.foldl_cons, if_pos (h v (by simp))]
    rw [show rest.foldl (fun acc w => if w.1 ≠ "" ∧ w.2 ≠ "" then w :: acc else acc) (v :: t) =
        copy_variables (v :: t) rest from rfl]
    rw [ih (v :: t) (fun u hu => h u (by simp [hu]))]
    simp

theorem append_new_fold (bl : List (String × String)) (acc : VarList)
    (hbl : bl.Pairwise (fun v w => v.1 ≠ w.1)) :
    bl.foldl
      (fun acc v => if acc.any (fun w => w.1 = v.1) then acc else acc ++ [v])
      acc =
    acc ++ bl.filter (fun v => !acc.any (fun w => w.1 = v.1)) := by
  induction bl generalizing acc with
  | nil => simp
  | cons v rest ih =>
    rw [List.pairwise_cons] at hbl
    simp only [List.foldl_cons]
    cases hc : acc.any (fun w => w.1 = v.1) with
    | true =>
      simp only [hc, if_true]
      rw [ih acc hbl.2, List.filter_cons_of_neg (by simp [hc])]
    | false =>
      simp only [hc, Bool.false_eq_true, if_false]
      rw [ih (acc ++ [v]) hbl.2, List.filter_cons_of_pos (by simp [hc])]
      have hfilter : rest.filter (fun u => !(acc ++ [v]).any (fun w => w.1 = u.1)) =
          rest.filter (fun u => !acc.any (fun w => w.1 = u.1)) := by
        apply List.filter_congr
        intro u hu
        have hne : v.1 ≠ u.1 := hbl.1 u hu
        simp [List.any_append, hne]
      rw [hfilter]
      simp

/-- C7 counterexample: inserting x,y for Party A and p,q for Party B, the
public record's variables are x,y followed by Party B's variables in
reverse insertion order (q before p), not the insertion order p,q the
claim requires. -/
theorem C7_counterexample :
    cdr_object_create_public_record_vars (mkVars c7AInserts) (mkVars c7BInserts) =
      [("x", "1"), ("y", "2"), ("q", "4"), ("p", "3")] ∧
    spec_public_record_vars c7AInserts c7BInserts =
      [("x", "1"), ("y", "2"), ("p", "3"), ("q", "4")] ∧
    cdr_object_create_public_record_vars (mkVars c7AInserts) (mkVars c7BInserts) ≠
      spec_public_record_vars c7AInserts c7BInserts := by
  refine ⟨by decide, by decide, by decide⟩

/-- C7 (amended): for insertion sequences with case-insensitively
distinct names and valid (non-empty) Party A entries, the public
record's variable list is Party A's variables in insertion order
followed by those Party B variables whose names are not among Party A's,
in *reverse* insertion order (most recently inserted first). -/
theorem C7_variables_amended (a b : List (String × String))
    (ha : a.Pairwise (fun v w => toLowerStr v.1 ≠ toLowerStr w.1))
    (hav : ∀ v ∈ a, v.1 ≠ "" ∧ v.2 ≠ "")
    (hb : b.Pairwise (fun v w => toLowerStr v.1 ≠ toLowerStr w.1)) :
    cdr_object_create_public_record_vars (mkVars a) (mkVars b) =
      a ++ b.reverse.filter (fun v => !a.any (fun w => w.1 = v.1)) := by
  rw [mkVars_distinct a ha, mkVars_distinct b hb]
  unfold cdr_object_create_public_record_vars
  rw [copy_variables_all_valid [] a.reverse
    (fun v hv => hav v (List.mem_reverse.mp hv))]
  simp only [List.reverse_reverse, List.append_nil]
  have hbrev : b.reverse.Pairwise (fun v w => v.1 ≠ w.1) := by
    rw [List.pairwise_reverse]
    exact hb.imp (fun h heq => h (by rw [heq]))
  exact append_new_fold b.reverse a hbrev

/-- Witness for C7 (amended) at the concrete insertion sequences. -/
theorem C7_variables_amended_witness :
    c7AInserts.Pairwise (fun v w => toLowerStr v.1 ≠ toLowerStr w.1) ∧
    c7BInserts.Pairwise (fun v w => toLowerStr v.1 ≠ toLowerStr w.1) ∧
    (∀ v ∈ c7AInserts, v.1 ≠ "" ∧ v.2 ≠ "") ∧
    cdr_object_create_public_record_vars (mkVars c7AInserts) (mkVars c7BInserts) =
      c7AInserts ++ c7BInserts.reverse.filter
        (fun v => !c7AInserts.any (fun w => w.1 = v.1)) :=
  ⟨by decide, by decide, by decide,
   C7_variables_amended c7AInserts c7BInserts (by decide) (by decide) (by decide)⟩

/-- C1: evaluation of `dialed_pending_state_process_dial_begin` on a
one-record DialedPending chain receiving a dial-begin.  The handler
transitions the old record to Finalized, appends a new Single record —
but then transitions the *old* record back to Single and passes it (not
the new record) to the dial-begin handler: afterwards the old record is
in the Dial state holding the dial's Party B, while the new record idles
in Single, contradicting the claim that the old record stays Finalized
and the new record adopts the parties and moves to Dial. -/
theorem C1_dial_begin_eval :
    ((dialed_pending_state_process_dial_begin cfg0 now0 2 dpChain 0
        (some sampleSnapshot) (some peerSnapshot)).1.records.map
        CdrObject.state = [CdrState.dial, CdrState.single]) ∧
    ((dialed_pending_state_process_dial_begin cfg0 now0 2 dpChain 0
        (some sampleSnapshot) (some peerSnapshot)).1.records.map
        (fun c => c.party_b.map (fun pb => pb.snapshot.name))) =
      [some "SIP/bob", none] := by
  refine ⟨by decide, by decide⟩

end Cdr
